import Mathlib

/-
Verification of the job-orchestration engine of the orchest repository
(src/services/orchest-api/app/app/apis/namespace_jobs.py).

The relational state is embedded shallowly: the Job, NonInteractivePipelineRun
and PipelineRunStep tables become lists of records, and every `_transaction`
phase of a TwoPhaseFunction becomes a pure function from the database state to
a new database state (plus the collateral kwargs it prepares).  A raised
exception (which rolls the enclosing transaction back) is modelled as an
`Except.error` or `Option.none` result that leaves the state unchanged.
External collaborators (croniter, the status-update helper, the single-run
abort primitive, the environment-variable validator, the image-lookup service
and the HTTP run-deletion endpoint) are not part of the analysed sources and
are either modelled from the spec or taken as explicit function parameters.
-/

namespace Orchest

/-- Statuses a job can have (`models.Job.status`). -/
inductive JobStatus where
  | DRAFT | PENDING | STARTED | PAUSED | SUCCESS | FAILURE | ABORTED
  deriving DecidableEq, Repr

/-- Statuses a pipeline run or a pipeline run step can have. -/
inductive RunStatus where
  | PENDING | STARTED | SUCCESS | FAILURE | ABORTED
  deriving DecidableEq, Repr

/-- End states of a job, the list ["SUCCESS", "FAILURE", "ABORTED"] used
throughout `namespace_jobs.py`. -/
def JobStatus.isEndState : JobStatus → Bool
  | .SUCCESS | .FAILURE | .ABORTED => true
  | _ => false

/-- End states of a run, the list ["SUCCESS", "FAILURE", "ABORTED"]. -/
def RunStatus.isEndState : RunStatus → Bool
  | .SUCCESS | .FAILURE | .ABORTED => true
  | _ => false

/-- Runs that still have to reach an end state, the list
["PENDING", "STARTED"] used in `AbortJob` and `UpdateJobPipelineRun`. -/
def RunStatus.isActive : RunStatus → Bool
  | .PENDING | .STARTED => true
  | _ => false

/-- A parameter set of one run: a schema-less JSON dictionary, of which the
engine only stores the value and counts the entries of the job-level list. -/
abbrev ParamSet := List (String × String)

/-- Environment variables as a key-value map. -/
abbrev EnvVars := List (String × String)

/-- One step of a pipeline definition: its uuid and the environment it runs
in (`pipeline_definition.steps` values). -/
structure PipelineStepDef where
  uuid : String
  environment : String
  deriving DecidableEq, Repr

/-- The pipeline definition snapshot stored on the job. -/
structure PipelineDef where
  steps : List PipelineStepDef
  deriving DecidableEq, Repr

/-- A concrete pipeline value as produced by `construct_pipeline` from the
definition with run parameters overlaid; the overlay does not change the set
of steps. -/
structure Pipeline where
  steps : List PipelineStepDef
  parameters : ParamSet
  deriving DecidableEq, Repr

/-- Counterpart of `app.core.pipelines.construct_pipeline` as used by RunJob:
the runtime pipeline value keeps the steps of the definition and records the
overlaid parameters. -/
def construct_pipeline (d : PipelineDef) (params : ParamSet) : Pipeline :=
  ⟨d.steps, params⟩

/-- Modelled from the spec: a cron expression, restricted to the minute-of-hour
and hour-of-day fields (enough for every schedule the spec mentions, such as
"0 * * * *"); croniter itself is an external library that is not part of the
analysed sources.  `none` stands for the `*` wildcard, and time is measured in
whole minutes since an arbitrary epoch. -/
structure CronExpr where
  minute : Option Nat
  hour : Option Nat
  deriving DecidableEq, Repr

/-- Whether a time instant matches the cron expression. -/
def cron_matches (e : CronExpr) (t : Nat) : Bool :=
  (match e.minute with | none => true | some m => t % 60 == m) &&
  (match e.hour with | none => true | some h => t / 60 % 24 == h)

/-- Modelled from the spec: `croniter.is_valid`; the two modelled fields must
be in range. -/
def croniter_is_valid (e : CronExpr) : Bool :=
  (match e.minute with | none => true | some m => decide (m < 60)) &&
  (match e.hour with | none => true | some h => decide (h < 24))

/-- Modelled from the spec: `croniter(expr, now).get_next(datetime)` returns
the first instant strictly after `now` that matches the expression.  For a
valid expression a match always occurs within one day, so the search is
bounded by 1440 minutes; the fallback value is never reached for valid
expressions. -/
def croniter_get_next (e : CronExpr) (now : Nat) : Nat :=
  ((List.range' (now + 1) 1440).find? (cron_matches e)).getD (now + 1)

/-- Row of the Job table, with the columns the analysed operations touch. -/
structure Job where
  uuid : String
  name : String
  project_uuid : String
  schedule : Option CronExpr
  parameters : List ParamSet
  env_variables : EnvVars
  strategy_json : List (String × String)
  pipeline_definition : PipelineDef
  status : JobStatus
  next_scheduled_time : Option Nat
  last_scheduled_time : Option Nat
  total_scheduled_executions : Nat
  total_scheduled_pipeline_runs : Nat
  max_retained_pipeline_runs : Int
  deriving DecidableEq, Repr

/-- Row of the NonInteractivePipelineRun table.  The uuid doubles as the
celery task id and is a number drawn from a fresh-id counter. -/
structure PipelineRun where
  uuid : Nat
  job_uuid : String
  parameters : ParamSet
  status : RunStatus
  job_run_index : Nat
  job_run_pipeline_run_index : Nat
  pipeline_run_index : Nat
  env_variables : EnvVars
  deriving DecidableEq, Repr

/-- Row of the PipelineRunStep table, keyed by (run_uuid, step_uuid). -/
structure PipelineRunStep where
  run_uuid : Nat
  step_uuid : String
  status : RunStatus
  deriving DecidableEq, Repr

/-- The relational store: the three tables plus the fresh-uuid source used to
pre-assign task ids (`uuid.uuid4()` in the source). -/
structure DB where
  jobs : List Job
  runs : List PipelineRun
  steps : List PipelineRunStep
  next_task_id : Nat
  deriving DecidableEq, Repr

/-- Query a job row by uuid (`models.Job.query.filter_by(uuid=...)`). -/
def lookupJob (db : DB) (uuid : String) : Option Job :=
  db.jobs.find? (fun x => x.uuid == uuid)

/-- Write back a job row, replacing the row with the same uuid. -/
def setJob (db : DB) (j : Job) : DB :=
  { db with jobs := db.jobs.map (fun x => if x.uuid == j.uuid then j else x) }

/-- Modelled from the spec: `app.utils.update_status_db` (not among the
analysed sources) applies a validated state transition to the run records
matching the filter; per the source comment in `AbortJob._transaction`,
records that are already in an end state are not modified. -/
def update_run_status_db (db : DB) (f : PipelineRun → Bool) (new : RunStatus) : DB :=
  { db with runs := db.runs.map (fun r =>
      if f r && !r.status.isEndState then { r with status := new } else r) }

/-- Modelled from the spec: `app.utils.update_status_db` on the step table. -/
def update_step_status_db (db : DB) (f : PipelineRunStep → Bool) (new : RunStatus) : DB :=
  { db with steps := db.steps.map (fun s =>
      if f s && !s.status.isEndState then { s with status := new } else s) }

/-! ## RunJob -/

/-- Collateral kwargs prepared by `RunJob._transaction` (lines 662-674): the
job data, the run config and the tasks to launch. -/
structure RunJobKwargs where
  job_uuid : String
  project_uuid : String
  schedule : Option CronExpr
  tasks_to_launch : List (Nat × Pipeline)
  run_config_env_variables : EnvVars
  deriving DecidableEq, Repr

/-- Result of `RunJob._transaction`: the new store state, the collateral
kwargs, and (for stating properties) the list of run rows created. -/
structure RunJobResult where
  db : DB
  kwargs : RunJobKwargs
  new_runs : List PipelineRun
  deriving DecidableEq, Repr

/-- The per-parameter-set loop of `RunJob._transaction` (lines 597-658): for
every parameter set, in order, create the run row with its three index fields
and the PENDING step rows, incrementing the global run counter and the fresh
task id as it goes. -/
def createRunsLoop (j : Job) (run_index task_id tspr : Nat) :
    List ParamSet → List PipelineRun × List PipelineRunStep
  | [] => ([], [])
  | p :: rest =>
    let r : PipelineRun :=
      { uuid := task_id, job_uuid := j.uuid, parameters := p, status := .PENDING,
        job_run_index := j.total_scheduled_executions,
        job_run_pipeline_run_index := run_index,
        pipeline_run_index := tspr,
        env_variables := j.env_variables }
    let ss := j.pipeline_definition.steps.map
      (fun su => ({ run_uuid := task_id, step_uuid := su.uuid, status := .PENDING } : PipelineRunStep))
    let q := createRunsLoop j (run_index + 1) (task_id + 1) (tspr + 1) rest
    (r :: q.1, ss ++ q.2)

/-- Embeds `RunJob._transaction` (lines 561-674).  NOTE on lines 580-586: when
the job status is ABORTED the source stores an empty collateral batch but,
unlike what its own comment announces, does not return; execution falls
through, the loop still runs, and the collateral kwargs are unconditionally
overwritten at lines 662-674.  The dead store is therefore not modelled, and
the ABORTED case behaves like every other status here, exactly as in the
source. -/
def runJobTransaction (db : DB) (job_uuid : String) : Option RunJobResult :=
  match lookupJob db job_uuid with
  | none => none
  | some j =>
    let j1 := if j.status = .PENDING then { j with status := .STARTED } else j
    let new_runs :=
      (createRunsLoop j1 0 db.next_task_id j1.total_scheduled_pipeline_runs j1.parameters).1
    let new_steps :=
      (createRunsLoop j1 0 db.next_task_id j1.total_scheduled_pipeline_runs j1.parameters).2
    let j2 := { j1 with
      total_scheduled_pipeline_runs :=
        j1.total_scheduled_pipeline_runs + j1.parameters.length,
      total_scheduled_executions := j1.total_scheduled_executions + 1 }
    let db1 := setJob db j2
    some
      { db := { db1 with
          runs := db1.runs ++ new_runs,
          steps := db1.steps ++ new_steps,
          next_task_id := db1.next_task_id + j1.parameters.length },
        kwargs :=
          { job_uuid := j2.uuid, project_uuid := j2.project_uuid,
            schedule := j2.schedule,
            tasks_to_launch := new_runs.map
              (fun r => (r.uuid, construct_pipeline j2.pipeline_definition r.parameters)),
            run_config_env_variables := j2.env_variables },
        new_runs := new_runs }

/-- The job row as RunJob leaves it: a PENDING job is STARTED, the global
run counter advances by the number of parameter sets, and the execution
counter advances by one. -/
def jobAfterRun (j : Job) : Job :=
  { j with
    status := if j.status = .PENDING then .STARTED else j.status,
    total_scheduled_pipeline_runs :=
      j.total_scheduled_pipeline_runs + j.parameters.length,
    total_scheduled_executions := j.total_scheduled_executions + 1 }

/-! ## Retention pruning -/

/-- The selection query of `_delete_non_retained_pipeline_runs`
(lines 500-541): `none` models the exception of `.one()` when the job row is
missing; `some []` is the early return when `max_retained_pipeline_runs < 0`;
otherwise exactly the runs of the job that are in an end state and whose
`pipeline_run_index` is at most
`(total_scheduled_pipeline_runs - 1) - max_retained_pipeline_runs` (integer
arithmetic, as in Python).  The source query has no ORDER BY clause, so only
the membership of this list is meaningful; the order in which the store hands
back the selected rows is unspecified and is modelled by
`isPruneSelectionResult` below. -/
def runs_to_be_deleted (db : DB) (job_uuid : String) : Option (List PipelineRun) :=
  match lookupJob db job_uuid with
  | none => none
  | some j =>
    if j.max_retained_pipeline_runs < 0 then some []
    else some (db.runs.filter (fun r =>
      r.job_uuid == job_uuid && r.status.isEndState &&
      decide ((r.pipeline_run_index : Int) ≤
        ((j.total_scheduled_pipeline_runs : Int) - 1) - j.max_retained_pipeline_runs)))

/-- Result semantics of the ORDER-BY-less selection query: the database may
return the rows satisfying the filter in any order, so a possible result
list — and hence a possible issuance order of the deletion loop — is any
permutation of the filtered rows. -/
def isPruneSelectionResult (db : DB) (job_uuid : String)
    (l : List PipelineRun) : Prop :=
  ∃ sel, runs_to_be_deleted db job_uuid = some sel ∧ List.Perm l sel

/-- What the deletion loop logs for one run, lines 543-555: either the success
branch (status code 200 or 404, the latter because of possible concurrent
deletion) or the unexpected-status branch; in both cases the loop continues
and no exception is raised. -/
inductive PruneLog where
  | delete_success (run_uuid : Nat)
  | unexpected_status_code (run_uuid : Nat) (code : Nat)
  deriving DecidableEq, Repr

/-- The classification of one HTTP response of the run-deletion endpoint:
the source treats exactly the codes 200 and 404 as success. -/
def classify_deletion_response (run_uuid code : Nat) : PruneLog :=
  if code == 200 || code == 404 then .delete_success run_uuid
  else .unexpected_status_code run_uuid code

/-- The deletion loop of `_delete_non_retained_pipeline_runs` (lines 543-555):
`respond` is the HTTP collaborator giving the status code of the DELETE call
for each run.  The loop only logs; it never fails. -/
def delete_run_calls (respond : Nat → Nat) (runs : List PipelineRun) : List PruneLog :=
  runs.map (fun r => classify_deletion_response r.uuid (respond r.uuid))

/-- Embeds `_delete_non_retained_pipeline_runs` (lines 500-555) as a whole:
select the non-retained runs, issue one DELETE call each, log the outcomes. -/
def delete_non_retained_pipeline_runs (respond : Nat → Nat) (db : DB)
    (job_uuid : String) : Option (List PruneLog) :=
  (runs_to_be_deleted db job_uuid).map (delete_run_calls respond)

/-- Embeds `RunJob._collateral` (lines 676-713): if the batch is empty return
immediately; otherwise prune non-retained runs (logging, never failing) and
dispatch every task, fire and forget.  The first component is the prune log,
the second the task ids dispatched to celery in order. -/
def runJobCollateral (respond : Nat → Nat) (db : DB) (kwargs : RunJobKwargs) :
    List PruneLog × List Nat :=
  if kwargs.tasks_to_launch.isEmpty then ([], [])
  else
    ((delete_non_retained_pipeline_runs respond db kwargs.job_uuid).getD [],
     kwargs.tasks_to_launch.map (fun t => t.1))

/-! ## AbortJob -/

/-- Result of `AbortJob._transaction`: `return False` (job missing), a bare
`return` when the job is already in an end state (the "nothing to do" case),
or `return True` after aborting. -/
inductive AbortResult where
  | not_found
  | nothing_to_do
  | aborted
  deriving DecidableEq, Repr

/-- Marks one run and its steps ABORTED through the status updater, as the
loop at lines 774-789 does. -/
def abortRunRows (db : DB) (run_uuid : Nat) : DB :=
  update_step_status_db
    (update_run_status_db db (fun r => r.uuid == run_uuid) .ABORTED)
    (fun s => s.run_uuid == run_uuid) .ABORTED

/-- Embeds `AbortJob._transaction` (lines 737-791): no-op when the job is
missing or already in an end state; otherwise the job becomes ABORTED with
`next_scheduled_time` cleared, and every run still PENDING or STARTED (and
its steps) is marked ABORTED.  The third component is the collateral
`run_uuids` list. -/
def abortJobTransaction (db : DB) (job_uuid : String) : DB × AbortResult × List Nat :=
  match lookupJob db job_uuid with
  | none => (db, .not_found, [])
  | some j =>
    if j.status.isEndState then (db, .nothing_to_do, [])
    else
      let run_uuids := (db.runs.filter
        (fun r => r.job_uuid == job_uuid && r.status.isActive)).map (fun r => r.uuid)
      let db1 := setJob db { j with status := .ABORTED, next_scheduled_time := none }
      let db2 := run_uuids.foldl abortRunRows db1
      (db2, .aborted, run_uuids)

/-! ## UpdateJobPipelineRun -/

/-- Collateral kwargs of `UpdateJobPipelineRun._transaction`. -/
structure UpdateRunKwargs where
  project_uuid : Option String
  job_uuid : Option String
  completed : Bool
  deriving DecidableEq, Repr

/-- The recount at lines 1178-1186: how many runs of the job are still
PENDING or STARTED. -/
def runs_to_complete_count (db : DB) (job_uuid : String) : Nat :=
  (db.runs.filter (fun r => r.job_uuid == job_uuid && r.status.isActive)).length

/-- Embeds `UpdateJobPipelineRun._transaction` (lines 1135-1204): apply the
status transition to the one run; when the new status is an end state and the
job (looked up with `.one()`, hence `none` when missing) has no schedule,
recount the runs still to complete and, when zero remain, set the job to
SUCCESS unless it is already in an end state. -/
def updateJobPipelineRunTransaction (db : DB) (job_uuid : String) (run_uuid : Nat)
    (newStatus : RunStatus) : Option (DB × UpdateRunKwargs) :=
  let db1 := update_run_status_db db
    (fun r => r.job_uuid == job_uuid && r.uuid == run_uuid) newStatus
  if newStatus.isEndState then
    match lookupJob db1 job_uuid with
    | none => none
    | some j =>
      if j.schedule = none then
        if runs_to_complete_count db1 job_uuid = 0 then
          let db2 := { db1 with jobs := db1.jobs.map (fun x =>
            if x.uuid == job_uuid && !x.status.isEndState
            then { x with status := .SUCCESS } else x) }
          some (db2, ⟨some j.project_uuid, some j.uuid, true⟩)
        else some (db1, ⟨some j.project_uuid, some j.uuid, false⟩)
      else some (db1, ⟨some j.project_uuid, some j.uuid, false⟩)
  else some (db1, ⟨none, none, false⟩)

/-- Embeds `UpdateJobPipelineRun._collateral` (lines 1206-1213): trigger the
stale-image reconciler when the job just completed, then always re-run
retention pruning; the prune outcome is only logged. -/
def updateJobPipelineRunCollateral (respond : Nat → Nat) (db : DB)
    (kwargs : UpdateRunKwargs) : List PruneLog :=
  match kwargs.job_uuid with
  | none => []
  | some ju => (delete_non_retained_pipeline_runs respond db ju).getD []

/-! ## Single-run abort and deletion -/

/-- Modelled from the spec: the single-run abort primitive
(`AbortPipelineRun` in `namespace_runs`, not among the analysed sources): a
run still PENDING or STARTED is marked ABORTED together with its steps and
`true` is returned; otherwise nothing changes and `false` is returned, which
callers treat as a normal outcome. -/
def abortPipelineRunTransaction (db : DB) (run_uuid : Nat) : DB × Bool :=
  match db.runs.find? (fun r => r.uuid == run_uuid) with
  | none => (db, false)
  | some r =>
    if r.status.isActive then (abortRunRows db run_uuid, true)
    else (db, false)

/-- Embeds `AbortJobPipelineRun._transaction` (lines 1219-1229): abort the
single run; when that was possible, report the ABORTED status through
`UpdateJobPipelineRun` so the job completion is re-checked. -/
def abortJobPipelineRunTransaction (db : DB) (job_uuid : String) (run_uuid : Nat) :
    Option (DB × Bool) :=
  let res := abortPipelineRunTransaction db run_uuid
  if res.2 then
    match updateJobPipelineRunTransaction res.1 job_uuid run_uuid .ABORTED with
    | none => none
    | some (db2, _) => some (db2, true)
  else some (db, false)

/-- Embeds `DeleteJobPipelineRun._transaction` (lines 1105-1124): nothing
happens when the job or the run row is missing; otherwise the run is aborted
(a no-op when it already ended), the job completion is re-checked, and the
run row is deleted with its steps (the cascade). -/
def deleteJobPipelineRunTransaction (db : DB) (job_uuid : String) (run_uuid : Nat) :
    Option (DB × Bool) :=
  if (lookupJob db job_uuid).isNone then some (db, false)
  else if (db.runs.find? (fun r => r.uuid == run_uuid)).isNone then some (db, false)
  else
    match abortJobPipelineRunTransaction db job_uuid run_uuid with
    | none => none
    | some (db1, _) =>
      some ({ db1 with
        runs := db1.runs.filter (fun r => !(r.uuid == run_uuid)),
        steps := db1.steps.filter (fun s => !(s.run_uuid == run_uuid)) }, true)

/-! ## PauseCronJob and ResumeCronJob -/

/-- Embeds `PauseCronJob._transaction` (lines 1238-1249): under the row lock,
only a STARTED job with a schedule is paused; its status becomes PAUSED and
`next_scheduled_time` is cleared; any other state is reported as `false`, not
as an exception. -/
def pauseCronJobTransaction (db : DB) (job_uuid : String) : DB × Bool :=
  match db.jobs.find? (fun j =>
      j.uuid == job_uuid && j.status == .STARTED && j.schedule.isSome) with
  | none => (db, false)
  | some j =>
    (setJob db { j with status := .PAUSED, next_scheduled_time := none }, true)

/-- Embeds `ResumeCronJob._transaction` (lines 1258-1271): under the row lock,
only a PAUSED job with a schedule is resumed; its status becomes STARTED and
`next_scheduled_time` is recomputed from the cron expression at the current
time; any other state yields `none`, not an exception. -/
def resumeCronJobTransaction (now : Nat) (db : DB) (job_uuid : String) :
    DB × Option Nat :=
  match db.jobs.find? (fun j =>
      j.uuid == job_uuid && j.status == .PAUSED && j.schedule.isSome) with
  | none => (db, none)
  | some j =>
    match j.schedule with
    | none => (db, none)
    | some e =>
      let t := croniter_get_next e now
      (setJob db { j with status := .STARTED, next_scheduled_time := some t }, some t)

/-! ## UpdateJob -/

/-- The payload of an UpdateJob request as unpacked by the endpoint
(lines 155-164): `none` means the key is absent from the payload. -/
structure JobUpdate where
  name : Option String
  cron_schedule : Option CronExpr
  parameters : Option (List ParamSet)
  env_variables : Option EnvVars
  next_scheduled_time : Option Nat
  strategy_json : Option (List (String × String))
  max_retained_pipeline_runs : Option Int
  confirm_draft : Bool
  deriving DecidableEq, Repr

/-- Bind for the Except-typed update steps; an error aborts the chain, which
models the exception rolling the transaction back. -/
def bindE {α β : Type} (x : Except String α) (f : α → Except String β) :
    Except String β :=
  match x with
  | .error e => .error e
  | .ok a => f a

/-- The `name` branch of `UpdateJob._transaction` (lines 917-918). -/
def updName (u : JobUpdate) (j : Job) : Job :=
  match u.name with
  | none => j
  | some n => { j with name := n }

/-- The `cron_schedule` branch (lines 920-940): rejected unless the job
already has a schedule or is a DRAFT; an invalid expression is rejected; on
success the schedule is stored and `next_scheduled_time` recomputed from now. -/
def updCron (now : Nat) (u : JobUpdate) (j : Job) : Except String Job :=
  match u.cron_schedule with
  | none => .ok j
  | some cs =>
    if j.schedule = none ∧ j.status ≠ .DRAFT then
      .error "Cannot set the schedule of a job which is not a cron job already."
    else if !croniter_is_valid cs then
      .error "Invalid cron schedule."
    else
      .ok { j with schedule := some cs,
                   next_scheduled_time := some (croniter_get_next cs now) }

/-- The `parameters` branch (lines 942-950). -/
def updParams (u : JobUpdate) (j : Job) : Except String Job :=
  match u.parameters with
  | none => .ok j
  | some ps =>
    if j.schedule = none ∧ j.status ≠ .DRAFT then
      .error "Cannot update the parameters of a job which is not a cron job."
    else .ok { j with parameters := ps }

/-- The `env_variables` branch (lines 952-962); `envValid` is the external
environment-variable validator. -/
def updEnv (envValid : EnvVars → Bool) (u : JobUpdate) (j : Job) : Except String Job :=
  match u.env_variables with
  | none => .ok j
  | some ev =>
    if j.schedule = none ∧ j.status ≠ .DRAFT then
      .error "Cannot update the env variables of a job which is not a cron job."
    else if !envValid ev then
      .error "Invalid environment variables definition."
    else .ok { j with env_variables := ev }

/-- The `next_scheduled_time` branch (lines 964-986): only a DRAFT may
receive it, not together with a new cron schedule on a cron job; when no cron
schedule is supplied the stored schedule is cleared. -/
def updNst (u : JobUpdate) (j : Job) : Except String Job :=
  match u.next_scheduled_time with
  | none => .ok j
  | some t =>
    if j.status ≠ .DRAFT then
      .error "Cannot set the next scheduled time of a job which is not a draft."
    else if j.schedule ≠ none ∧ u.cron_schedule ≠ none then
      .error "Cannot set the next scheduled time of a cron job."
    else
      let j1 := if u.cron_schedule = none then { j with schedule := none } else j
      .ok { j1 with next_scheduled_time := some t }

/-- The branch at lines 988-995: a DRAFT that receives neither a
`next_scheduled_time` nor a `cron_schedule` is to be scheduled now, so both
`schedule` and `next_scheduled_time` are cleared. -/
def updDraftFrame (u : JobUpdate) (j : Job) : Job :=
  if j.status = .DRAFT ∧ u.next_scheduled_time = none ∧ u.cron_schedule = none then
    { j with schedule := none, next_scheduled_time := none }
  else j

/-- The `strategy_json` branch (lines 997-1005). -/
def updStrategy (u : JobUpdate) (j : Job) : Except String Job :=
  match u.strategy_json with
  | none => .ok j
  | some sj =>
    if j.schedule = none ∧ j.status ≠ .DRAFT then
      .error "Cannot set the strategy json of a job which is not a draft nor a cron job."
    else .ok { j with strategy_json := sj }

/-- The `max_retained_pipeline_runs` branch (lines 1007-1024). -/
def updMaxRetained (u : JobUpdate) (j : Job) : Except String Job :=
  match u.max_retained_pipeline_runs with
  | none => .ok j
  | some m =>
    if j.schedule = none ∧ j.status ≠ .DRAFT then
      .error "Cannot update the max_retained_pipeline_runs of a job which is not a draft nor a cron job."
    else if m < -1 then
      .error "Invalid max_retained_pipeline_runs."
    else .ok { j with max_retained_pipeline_runs := m }

/-- The `confirm_draft` branch (lines 1026-1070): only a DRAFT can be
confirmed; every referenced environment must still have a built image
(`missing_images` is the external image-lookup collaborator); a one-off job
becomes PENDING and, when it has no scheduled time, is run inline through
`RunJob`; a cron job becomes STARTED.  When the flag is absent the updated
job row is simply written back. -/
def updConfirmDraft (missing_images : List String → List String) (now : Nat)
    (u : JobUpdate) (db : DB) (j : Job) : Except String DB :=
  if !u.confirm_draft then .ok (setJob db j)
  else if j.status ≠ .DRAFT then
    .error "The job is not a draft."
  else if missing_images (j.pipeline_definition.steps.map (fun s => s.environment)) ≠ [] then
    .error "Pipeline references environments that do not exist in the project."
  else
    match j.schedule with
    | none =>
      let j1 := { j with status := JobStatus.PENDING }
      match j1.next_scheduled_time with
      | none =>
        let j2 := { j1 with last_scheduled_time := some now }
        match runJobTransaction (setJob db j2) j2.uuid with
        | none => .error "Job not found."
        | some res => .ok res.db
      | some t => .ok (setJob db { j1 with last_scheduled_time := some t })
    | some _ =>
      .ok (setJob db { j with last_scheduled_time := j.next_scheduled_time,
                              status := JobStatus.STARTED })

/-- Embeds `UpdateJob._transaction` (lines 903-1070) as the chain of its
field-by-field branches in source order; an error leaves the store unchanged
(the endpoint rolls the transaction back). -/
def updateJobTransaction (envValid : EnvVars → Bool)
    (missing_images : List String → List String) (now : Nat) (db : DB)
    (job_uuid : String) (u : JobUpdate) : Except String DB :=
  match lookupJob db job_uuid with
  | none => .error "Job not found."
  | some j0 =>
    bindE (updCron now u (updName u j0)) (fun j2 =>
    bindE (updParams u j2) (fun j3 =>
    bindE (updEnv envValid u j3) (fun j4 =>
    bindE (updNst u j4) (fun j5 =>
    bindE (updStrategy u (updDraftFrame u j5)) (fun j7 =>
    bindE (updMaxRetained u j7) (fun j8 =>
    updConfirmDraft missing_images now u db j8))))))

/-! ## Operation sequences on one job

Sequences of lifecycle operations on a single job, used to state the
counter and index invariants: a `RunJob` invocation, a parameter update
(the `parameters` branch of `UpdateJob`, which the source only accepts for
drafts and cron jobs), and the deletion of one pipeline run through
`DeleteJobPipelineRun`. -/

inductive JobOp where
  | runOp : JobOp
  | setParamsOp : List ParamSet → JobOp
  | deleteRunOp : Nat → JobOp
  deriving DecidableEq, Repr

/-- The payload of the parameters-only UpdateJob call. -/
def paramsOnlyUpdate (ps : List ParamSet) : JobUpdate :=
  ⟨none, none, some ps, none, none, none, none, false⟩

/-- Applies one operation to the store, returning the new store and the run
rows created by the operation (empty except for `runOp`).  A transaction that
raises (or reports that there was nothing to do) leaves the store unchanged,
as the rolled-back or no-op source transaction does. -/
def applyOp (db : DB) (job_uuid : String) : JobOp → DB × List PipelineRun
  | .runOp =>
    match runJobTransaction db job_uuid with
    | none => (db, [])
    | some res => (res.db, res.new_runs)
  | .setParamsOp ps =>
    match updateJobTransaction (fun _ => true) (fun _ => []) 0 db job_uuid
        (paramsOnlyUpdate ps) with
    | .error _ => (db, [])
    | .ok db1 => (db1, [])
  | .deleteRunOp ru =>
    match deleteJobPipelineRunTransaction db job_uuid ru with
    | none => (db, [])
    | some (db1, _) => (db1, [])

/-- Applies a sequence of operations, accumulating the created run rows in
creation order. -/
def applyOps (db : DB) (job_uuid : String) : List JobOp → DB × List PipelineRun
  | [] => (db, [])
  | op :: rest =>
    let s1 := applyOp db job_uuid op
    let s2 := applyOps s1.1 job_uuid rest
    (s2.1, s1.2 ++ s2.2)

/-- For each `RunJob` invocation in the sequence, the number of parameter
sets of the job at the moment of that invocation. -/
def paramCounts (db : DB) (job_uuid : String) : List JobOp → List Nat
  | [] => []
  | op :: rest =>
    let here : List Nat :=
      match op with
      | .runOp =>
        match lookupJob db job_uuid with
        | some j => [j.parameters.length]
        | none => []
      | _ => []
    here ++ paramCounts (applyOp db job_uuid op).1 job_uuid rest

/-- The `job_run_index` pattern of the created runs: the k-th `RunJob`
invocation (with the execution counter starting at `e`) stamps all the runs
of its batch with the value `e + k`. -/
def stairsFrom (e : Nat) : List Nat → List Nat
  | [] => []
  | c :: cs => List.replicate c e ++ stairsFrom (e + 1) cs

/-! ## Concrete instances used by the closed statements -/

/-- A template job used by the concrete instances below. -/
def baseJob : Job :=
  { uuid := "job", name := "job name", project_uuid := "proj",
    schedule := none, parameters := [[("k", "v")]], env_variables := [],
    strategy_json := [], pipeline_definition := ⟨[⟨"s1", "e1"⟩]⟩,
    status := .DRAFT, next_scheduled_time := none, last_scheduled_time := none,
    total_scheduled_executions := 0, total_scheduled_pipeline_runs := 0,
    max_retained_pipeline_runs := -1 }

/-- A completed run row with the given uuid, global index and status. -/
def mkEndedRun (i : Nat) (st : RunStatus) : PipelineRun :=
  { uuid := i, job_uuid := "job", parameters := [], status := st,
    job_run_index := 0, job_run_pipeline_run_index := i, pipeline_run_index := i,
    env_variables := [] }

/-- The failing input of the ABORTED-bailout claim: a job that is already
ABORTED, with one parameter set. -/
def c2_db : DB := ⟨[{ baseJob with status := .ABORTED }], [], [], 100⟩

/-- The job of the retention example: five runs already scheduled, at most
two retained. -/
def c4_example_job : Job :=
  { baseJob with
    status := .SUCCESS, total_scheduled_pipeline_runs := 5,
    max_retained_pipeline_runs := 2 }

/-- The store of the retention example: five completed runs with indices
zero to four. -/
def c4_example_db : DB :=
  ⟨[c4_example_job],
   [mkEndedRun 0 .SUCCESS, mkEndedRun 1 .SUCCESS, mkEndedRun 2 .SUCCESS,
    mkEndedRun 3 .SUCCESS, mkEndedRun 4 .SUCCESS], [], 100⟩

/-- Witness store for the ordering claim: a retention-eligible mix of ended
and running rows in creation order. -/
def c5_witness_db : DB :=
  ⟨[c4_example_job],
   [mkEndedRun 0 .SUCCESS, mkEndedRun 1 .STARTED, mkEndedRun 2 .FAILURE,
    mkEndedRun 3 .ABORTED, mkEndedRun 4 .PENDING], [], 100⟩

/-- Witness store for the completion claim: a one-off STARTED job whose first
run was already aborted and whose second run is still running. -/
def c3_witness_db : DB :=
  ⟨[{ baseJob with
      status := .STARTED, parameters := [[], []],
      total_scheduled_executions := 1, total_scheduled_pipeline_runs := 2 }],
   [mkEndedRun 0 .ABORTED, mkEndedRun 1 .STARTED], [], 100⟩

/-- Witness store for the abort claim: a STARTED one-off job with one
running run and its step. -/
def c6_witness_db : DB :=
  ⟨[{ baseJob with
      status := .STARTED, total_scheduled_executions := 1,
      total_scheduled_pipeline_runs := 1 }],
   [mkEndedRun 0 .STARTED], [⟨0, "s1", .PENDING⟩], 100⟩

/-- Witness job for the immutability claim: a confirmed one-off job. -/
def c7_witness_db : DB :=
  ⟨[{ baseJob with status := .PENDING }], [], [], 100⟩

/-- The parameter-change payload of the immutability witness. -/
def c7_witness_update : JobUpdate :=
  ⟨none, none, some [[], []], none, none, none, none, false⟩

/-- Witness store for the pause and resume claim: a PAUSED hourly cron job. -/
def c8_witness_db : DB :=
  ⟨[{ baseJob with status := .PAUSED, schedule := some ⟨some 0, none⟩ }], [], [], 100⟩

/-- The counterexample input of the frame claim: a DRAFT job that still
stores a cron schedule. -/
def c10_db : DB :=
  ⟨[{ baseJob with
      status := .DRAFT, schedule := some ⟨some 0, none⟩,
      next_scheduled_time := some 60 }], [], [], 100⟩

/-- The counterexample payload: only `next_scheduled_time` is supplied, yet
the stored cron schedule gets cleared. -/
def c10_update : JobUpdate :=
  ⟨none, none, none, none, some 100, none, none, false⟩

/-- Witness payload for the amended frame claim: a name-only update. -/
def c10_witness_update : JobUpdate :=
  ⟨some "new name", none, none, none, none, none, none, false⟩

/-- Witness store for the amended frame claim: a DRAFT one-off job with a
stored scheduled start. -/
def c10_witness_db : DB :=
  ⟨[{ baseJob with status := .DRAFT, next_scheduled_time := some 60 }], [], [], 100⟩

/-- The store after the name-only witness update: the stored scheduled start
of the draft has been cleared as a side effect. -/
def c10_witness_result : DB :=
  ⟨[{ baseJob with name := "new name" }], [], [], 100⟩

/-- Witness job for the counter claim: a fresh PENDING one-off job with two
parameter sets. -/
def c1_witness_job : Job :=
  { baseJob with status := .PENDING, parameters := [[], []] }

/-- Witness store for the counter claim. -/
def c1_witness_db : DB :=
  ⟨[c1_witness_job], [], [], 0⟩

/-- Witness operation sequence for the counter claim: run, change the
parameters, run again, delete the first run, run again. -/
def c1_witness_ops : List JobOp :=
  [.runOp, .setParamsOp [[], [], [("a", "b")]], .runOp, .deleteRunOp 0, .runOp]

/-- The job fields that no field-update branch of UpdateJob (before
`confirm_draft`) ever touches, bundled for frame reasoning. -/
def jobBase (j : Job) : String × JobStatus × Option Nat × Nat × Nat :=
  (j.uuid, j.status, j.last_scheduled_time, j.total_scheduled_executions,
   j.total_scheduled_pipeline_runs)

/-- Witness collateral batch for the error-handling claim: one task. -/
def c9_witness_kwargs : RunJobKwargs :=
  { job_uuid := "job", project_uuid := "proj", schedule := none,
    tasks_to_launch := [(1, ⟨[], []⟩)], run_config_env_variables := [] }

/-! ## Claim C2 -/

/-- C2: the claim states that invoking RunJob on an ABORTED job bails out
cleanly, creating no rows, leaving both counters untouched and handing the
collateral phase an empty batch.  The source comment at lines 580-586
announces exactly that, but the branch assigns the empty collateral kwargs
without returning; execution falls through, so on an ABORTED job with one
parameter set the transaction still creates one run row and one step row,
increments both counters to one, and the collateral batch holds one task,
which the collateral phase dispatches. -/
theorem C2_aborted_job_runs_anyway :
    (runJobTransaction c2_db "job").map (fun res =>
      (res.new_runs.length, res.kwargs.tasks_to_launch.length,
       (lookupJob res.db "job").map (fun j =>
         (j.total_scheduled_executions, j.total_scheduled_pipeline_runs)),
       (runJobCollateral (fun _ => 200) res.db res.kwargs).2.length,
       res.db.steps.length)) =
    some (1, 1, some (1, 1), 1, 1) := by
  decide

/-! ## Claim C4 -/

/-- C4: retention pruning is a no-op when `max_retained_pipeline_runs` is
negative, and otherwise selects exactly the runs of the job that are in an
end state and whose `pipeline_run_index` is at most
`(total_scheduled_pipeline_runs - 1) - max_retained_pipeline_runs`; on the
example job with five completed runs and a retention bound of two, the runs
with indices zero, one and two are selected and the runs three and four
survive. -/
theorem C4_retention_selection (db : DB) (job_uuid : String) (j : Job)
    (hl : lookupJob db job_uuid = some j) :
    (j.max_retained_pipeline_runs < 0 → runs_to_be_deleted db job_uuid = some []) ∧
    (0 ≤ j.max_retained_pipeline_runs → ∀ l, runs_to_be_deleted db job_uuid = some l →
      ∀ r, r ∈ l ↔ (r ∈ db.runs ∧ r.job_uuid = job_uuid ∧ r.status.isEndState = true ∧
        (r.pipeline_run_index : Int) ≤
          ((j.total_scheduled_pipeline_runs : Int) - 1) - j.max_retained_pipeline_runs)) ∧
    ((runs_to_be_deleted c4_example_db "job").map (fun l =>
        l.map (fun r => r.pipeline_run_index)) = some [0, 1, 2]) ∧
    ((c4_example_db.runs.filter (fun r =>
        !((runs_to_be_deleted c4_example_db "job").getD []).contains r)).map
        (fun r => r.pipeline_run_index) = [3, 4]) := by
  refine ⟨?_, ?_, by decide, by decide⟩
  · intro h
    simp [runs_to_be_deleted, hl, h]
  · intro h l hsel r
    simp only [runs_to_be_deleted, hl] at hsel
    rw [if_neg (by omega)] at hsel
    cases hsel
    simp only [List.mem_filter, Bool.and_eq_true, beq_iff_eq, decide_eq_true_eq]
    tauto

/-- Closed witness for C4: the hypotheses hold at the example store and the
theorem yields the example selection. -/
theorem C4_retention_selection_witness :
    lookupJob c4_example_db "job" = some c4_example_job ∧
    ((runs_to_be_deleted c4_example_db "job").map (fun l =>
        l.map (fun r => r.pipeline_run_index)) = some [0, 1, 2]) :=
  ⟨by decide,
   (C4_retention_selection c4_example_db "job" c4_example_job (by decide)).2.2.1⟩

/-! ## Claim C5 -/

/-- C5 as stated is refuted here: the selection query of one pruning
invocation has no ORDER BY clause, so the store may hand the deletion loop
the eligible rows in any order.  On the witness store the sequence that
issues the run with index 2 before the run with index 0 is a possible
issuance order; both runs are in an end state, the sequence is not ascending
in `pipeline_run_index`, and the higher-index run is deleted before the
lower-index one — exactly what the claim rules out (and what the source
comment at lines 528-533 itself concedes can happen). -/
theorem C5_counterexample_descending_issuance :
    isPruneSelectionResult c5_witness_db "job"
      [mkEndedRun 2 .FAILURE, mkEndedRun 0 .SUCCESS] ∧
    ¬ ([mkEndedRun 2 .FAILURE, mkEndedRun 0 .SUCCESS] : List PipelineRun).Pairwise
      (fun a b => a.pipeline_run_index < b.pipeline_run_index) ∧
    (mkEndedRun 2 .FAILURE).status.isEndState = true ∧
    (mkEndedRun 0 .SUCCESS).status.isEndState = true ∧
    (mkEndedRun 0 .SUCCESS).pipeline_run_index
      < (mkEndedRun 2 .FAILURE).pipeline_run_index :=
  ⟨⟨[mkEndedRun 0 .SUCCESS, mkEndedRun 2 .FAILURE], by decide, by decide⟩,
   by decide, by decide, by decide, by decide⟩

/-- C5, amended: the program does not fix the order in which one pruning
invocation issues its deletion requests — any permutation of the eligible
rows is a possible issuance sequence.  What the invocation does guarantee,
for every possible sequence: when retention is unlimited the sequence is
empty; otherwise it consists of exactly the end-state runs of the job whose
`pipeline_run_index` is at most the retention threshold, so a run with an
index above the threshold — even one already in an end state — is never
deleted by the invocation, and the multiset of issued requests is the same
whatever order the store picks. -/
theorem C5_prune_requests_threshold_bounded (db : DB) (job_uuid : String)
    (j : Job) (l : List PipelineRun)
    (hl : lookupJob db job_uuid = some j)
    (hres : isPruneSelectionResult db job_uuid l) :
    (j.max_retained_pipeline_runs < 0 → l = []) ∧
    (0 ≤ j.max_retained_pipeline_runs →
      ∀ r, r ∈ l ↔ (r ∈ db.runs ∧ r.job_uuid = job_uuid ∧ r.status.isEndState = true ∧
        (r.pipeline_run_index : Int) ≤
          ((j.total_scheduled_pipeline_runs : Int) - 1) - j.max_retained_pipeline_runs)) ∧
    (∀ r ∈ l, (r.pipeline_run_index : Int) ≤
      ((j.total_scheduled_pipeline_runs : Int) - 1) - j.max_retained_pipeline_runs) ∧
    (∀ l2, isPruneSelectionResult db job_uuid l2 → List.Perm l l2) := by
  obtain ⟨sel, hsel, hperm⟩ := hres
  have huniq : ∀ l2, isPruneSelectionResult db job_uuid l2 → List.Perm l l2 := by
    intro l2 hres2
    obtain ⟨sel2, hsel2, hperm2⟩ := hres2
    rw [hsel] at hsel2
    cases hsel2
    exact hperm.trans hperm2.symm
  by_cases hm : j.max_retained_pipeline_runs < 0
  · simp only [runs_to_be_deleted, hl, if_pos hm] at hsel
    cases hsel
    have hl0 : l = [] := hperm.eq_nil
    refine ⟨fun _ => hl0, fun hpos => absurd hm (by omega), ?_, huniq⟩
    rw [hl0]
    intro r hr
    cases hr
  · simp only [runs_to_be_deleted, hl] at hsel
    rw [if_neg hm] at hsel
    cases hsel
    have hmem : ∀ r, r ∈ l ↔ (r ∈ db.runs ∧ r.job_uuid = job_uuid ∧
        r.status.isEndState = true ∧
        (r.pipeline_run_index : Int) ≤
          ((j.total_scheduled_pipeline_runs : Int) - 1)
            - j.max_retained_pipeline_runs) := by
      intro r
      rw [hperm.mem_iff]
      simp only [List.mem_filter, Bool.and_eq_true, beq_iff_eq, decide_eq_true_eq]
      tauto
    refine ⟨fun hneg => absurd hneg hm, fun _ => hmem, ?_, huniq⟩
    intro r hr
    exact ((hmem r).mp hr).2.2.2

/-- Closed witness for the amended C5: a possible issuance sequence on the
witness store, every issued index below the threshold. -/
theorem C5_prune_requests_threshold_bounded_witness :
    lookupJob c5_witness_db "job" = some c4_example_job ∧
    isPruneSelectionResult c5_witness_db "job"
      [mkEndedRun 0 .SUCCESS, mkEndedRun 2 .FAILURE] ∧
    ∀ r ∈ ([mkEndedRun 0 .SUCCESS, mkEndedRun 2 .FAILURE] : List PipelineRun),
      (r.pipeline_run_index : Int) ≤
        ((c4_example_job.total_scheduled_pipeline_runs : Int) - 1)
          - c4_example_job.max_retained_pipeline_runs :=
  ⟨by decide,
   ⟨[mkEndedRun 0 .SUCCESS, mkEndedRun 2 .FAILURE], by decide, by decide⟩,
   (C5_prune_requests_threshold_bounded c5_witness_db "job" c4_example_job
     [mkEndedRun 0 .SUCCESS, mkEndedRun 2 .FAILURE] (by decide)
     ⟨[mkEndedRun 0 .SUCCESS, mkEndedRun 2 .FAILURE], by decide, by decide⟩).2.2.1⟩

/-! ## Claim C6 -/

/-- Jobs are untouched by the per-run abort helper. -/
theorem abortRunRows_jobs (db : DB) (ru : Nat) : (abortRunRows db ru).jobs = db.jobs :=
  rfl

/-- Jobs are untouched by folding the per-run abort helper. -/
theorem foldl_abortRunRows_jobs (l : List Nat) (db : DB) :
    (l.foldl abortRunRows db).jobs = db.jobs := by
  induction l generalizing db with
  | nil => rfl
  | cons a t ih => rw [List.foldl_cons, ih, abortRunRows_jobs]

/-- Looking up the only job of the store by its own uuid finds it. -/
theorem lookupJob_single (db : DB) (j : Job) (h : db.jobs = [j]) :
    lookupJob db j.uuid = some j := by
  simp [lookupJob, h]

/-- Writing a row with the uuid of the only job replaces that row. -/
theorem setJob_single (db : DB) (j j2 : Job) (h : db.jobs = [j]) (he : j2.uuid = j.uuid) :
    (setJob db j2).jobs = [j2] := by
  simp [setJob, h, he]

/-- C6: aborting is idempotent.  A job already in an end state is left fully
unchanged and the call reports that there was nothing to do; a non-terminal
job is moved to the terminal ABORTED state; and a second abort right after a
first one is always a no-op reporting nothing to do. -/
theorem C6_abort_idempotent (db : DB) (j : Job) (job_uuid : String)
    (hdb : db.jobs = [j]) (hu : j.uuid = job_uuid) :
    (j.status.isEndState = true →
       abortJobTransaction db job_uuid = (db, .nothing_to_do, [])) ∧
    (j.status.isEndState = false →
       (abortJobTransaction db job_uuid).2.1 = .aborted ∧
       (abortJobTransaction db job_uuid).1.jobs.map (fun x => x.status) = [.ABORTED] ∧
       JobStatus.ABORTED.isEndState = true) ∧
    abortJobTransaction (abortJobTransaction db job_uuid).1 job_uuid =
      ((abortJobTransaction db job_uuid).1, .nothing_to_do, []) := by
  subst hu
  have hL := lookupJob_single db j hdb
  by_cases hend : j.status.isEndState
  · have h1 : abortJobTransaction db j.uuid = (db, .nothing_to_do, []) := by
      rw [abortJobTransaction, hL]
      simp [hend]
    refine ⟨fun _ => h1, fun hc => absurd hend (by simp [hc]), ?_⟩
    rw [h1]
    rw [abortJobTransaction, hL]
    simp [hend]
  · have hj2 : (setJob db { j with status := .ABORTED, next_scheduled_time := none }).jobs
        = [{ j with status := .ABORTED, next_scheduled_time := none }] :=
      setJob_single db j _ hdb rfl
    have h1 : abortJobTransaction db j.uuid =
        (((db.runs.filter (fun r => r.job_uuid == j.uuid && r.status.isActive)).map
            (fun r => r.uuid)).foldl abortRunRows
          (setJob db { j with status := .ABORTED, next_scheduled_time := none }),
         .aborted,
         (db.runs.filter (fun r => r.job_uuid == j.uuid && r.status.isActive)).map
            (fun r => r.uuid)) := by
      rw [abortJobTransaction, hL]
      simp [hend]
    have hjobs1 : (abortJobTransaction db j.uuid).1.jobs
        = [{ j with status := .ABORTED, next_scheduled_time := none }] := by
      rw [h1, foldl_abortRunRows_jobs, hj2]
    have hL1 : lookupJob (abortJobTransaction db j.uuid).1
        ({ j with status := .ABORTED, next_scheduled_time := none } : Job).uuid
        = some { j with status := .ABORTED, next_scheduled_time := none } :=
      lookupJob_single _ _ hjobs1
    refine ⟨fun hc => absurd hc (by simp [hend]), fun _ => ?_, ?_⟩
    · rw [h1]
      refine ⟨rfl, ?_, rfl⟩
      rw [foldl_abortRunRows_jobs, hj2]
      rfl
    · rw [abortJobTransaction, hL1]
      simp [JobStatus.isEndState]

/-- Closed witness for C6: at the witness store the job is STARTED, the first
abort moves it to ABORTED, and the second abort is a no-op. -/
theorem C6_abort_idempotent_witness :
    c6_witness_db.jobs.map (fun x => x.status.isEndState) = [false] ∧
    (abortJobTransaction c6_witness_db "job").2.1 = .aborted ∧
    (abortJobTransaction c6_witness_db "job").1.jobs.map (fun x => x.status) = [.ABORTED] ∧
    abortJobTransaction (abortJobTransaction c6_witness_db "job").1 "job" =
      ((abortJobTransaction c6_witness_db "job").1, .nothing_to_do, []) := by
  have h := C6_abort_idempotent c6_witness_db _ "job" rfl rfl
  exact ⟨by decide, (h.2.1 (by decide)).1, (h.2.1 (by decide)).2.1, h.2.2⟩

/-! ## Claim C3 -/

/-- The status updater on runs leaves the job table alone. -/
theorem update_run_status_db_jobs (db : DB) (f : PipelineRun → Bool) (new : RunStatus) :
    (update_run_status_db db f new).jobs = db.jobs :=
  rfl

/-- C3: reporting a terminal run status on a one-off job re-counts the runs
still PENDING or STARTED over the stored table (after the one-run update) and
flips the job to SUCCESS exactly when zero remain and the job is not already
in an end state — irrespective of which end states the individual runs
reached; a job that still has active runs, a job already in an end state, and
every cron job are left unchanged. -/
theorem C3_oneoff_completion (db : DB) (j : Job) (job_uuid : String) (run_uuid : Nat)
    (ns : RunStatus) (hdb : db.jobs = [j]) (hu : j.uuid = job_uuid)
    (hterm : ns.isEndState = true) :
    ∃ res : DB × UpdateRunKwargs,
      updateJobPipelineRunTransaction db job_uuid run_uuid ns = some res ∧
      res.1.runs = (update_run_status_db db
        (fun r => r.job_uuid == job_uuid && r.uuid == run_uuid) ns).runs ∧
      ∃ jf, res.1.jobs = [jf] ∧
        (j.schedule = none →
          ((runs_to_complete_count (update_run_status_db db
               (fun r => r.job_uuid == job_uuid && r.uuid == run_uuid) ns) job_uuid = 0 ∧
            j.status.isEndState = false) →
              jf = { j with status := .SUCCESS } ∧ res.2.completed = true) ∧
          (runs_to_complete_count (update_run_status_db db
               (fun r => r.job_uuid == job_uuid && r.uuid == run_uuid) ns) job_uuid ≠ 0 →
              jf = j ∧ res.2.completed = false) ∧
          (j.status.isEndState = true → jf = j)) ∧
        (∀ e, j.schedule = some e → jf = j ∧ res.2.completed = false) := by
  subst hu
  have hjobs1 : (update_run_status_db db
      (fun r => r.job_uuid == j.uuid && r.uuid == run_uuid) ns).jobs = [j] := by
    rw [update_run_status_db_jobs, hdb]
  have hL1 := lookupJob_single _ j hjobs1
  rw [updateJobPipelineRunTransaction, if_pos hterm]
  simp only [hL1]
  cases hs : j.schedule with
  | some e =>
    rw [if_neg (by simp [hs])]
    refine ⟨_, rfl, rfl, j, hjobs1, fun hnone => absurd hnone (by simp [hs]), ?_⟩
    intro e2 _
    exact ⟨rfl, rfl⟩
  | none =>
    rw [if_pos rfl]
    by_cases hcount : runs_to_complete_count (update_run_status_db db
        (fun r => r.job_uuid == j.uuid && r.uuid == run_uuid) ns) j.uuid = 0
    · rw [if_pos hcount]
      by_cases hend : j.status.isEndState
      · refine ⟨_, rfl, rfl, j, ?_, ?_, by simp [hs]⟩
        · rw [hjobs1]
          simp [hend]
        · intro _
          refine ⟨fun hc => absurd hend (by simp [hc.2]), fun hc => absurd hcount hc, fun _ => rfl⟩
      · refine ⟨_, rfl, rfl, { j with status := .SUCCESS }, ?_, ?_, by simp [hs]⟩
        · rw [hjobs1]
          simp [hend]
        · intro _
          exact ⟨fun _ => ⟨by rw [hs], rfl⟩, fun hc => absurd hcount hc,
                 fun hc => absurd hc (by simp [hend])⟩
    · rw [if_neg hcount]
      refine ⟨_, rfl, rfl, j, hjobs1, ?_, by simp [hs]⟩
      intro _
      exact ⟨fun hc => absurd hc.1 hcount, fun _ => ⟨rfl, rfl⟩, fun _ => rfl⟩

/-- Closed witness for C3: on the witness store, reporting FAILURE for the
still running second run (the first one having been ABORTED) leaves zero
active runs, so the one-off job flips to SUCCESS although no run succeeded. -/
theorem C3_oneoff_completion_witness :
    (updateJobPipelineRunTransaction c3_witness_db "job" 1 .FAILURE).map
      (fun res => (res.1.jobs.map (fun x => x.status), res.2.completed)) =
      some ([.SUCCESS], true) := by
  obtain ⟨res, h1, _, jf, h3, h4, _⟩ :=
    C3_oneoff_completion c3_witness_db _ "job" 1 .FAILURE rfl rfl (by decide)
  obtain ⟨hjf, hcompleted⟩ := (h4 rfl).1 ⟨by decide, by decide⟩
  rw [h1]
  simp [h3, hjf, hcompleted]

/-! ## Claim C9 -/

/-- C9: pruning outcomes never fail the triggering operation.  The dispatched
task batch of the RunJob collateral is the same for every possible set of
deletion responses; a 404 response lands in the success branch; any other
response outside 200 and 404 is recorded in the log but the loop continues;
and both the pruning helper and the UpdateJobPipelineRun collateral return
their log normally, producing exactly one log entry per selected run. -/
theorem C9_prune_failures_swallowed (db : DB) (kwargs : RunJobKwargs)
    (ukw : UpdateRunKwargs) (respond respond2 : Nat → Nat) :
    (runJobCollateral respond db kwargs).2 = (runJobCollateral respond2 db kwargs).2 ∧
    (kwargs.tasks_to_launch ≠ [] →
      (runJobCollateral respond db kwargs).2 = kwargs.tasks_to_launch.map (fun t => t.1)) ∧
    (∀ ru, classify_deletion_response ru 404 = .delete_success ru) ∧
    (∀ ru code, code ≠ 200 → code ≠ 404 →
      classify_deletion_response ru code = .unexpected_status_code ru code) ∧
    (∀ ju l, runs_to_be_deleted db ju = some l →
      delete_non_retained_pipeline_runs respond db ju =
        some (l.map (fun r => classify_deletion_response r.uuid (respond r.uuid)))) ∧
    (∀ ju l, runs_to_be_deleted db ju = some l → ukw.job_uuid = some ju →
      updateJobPipelineRunCollateral respond db ukw =
        l.map (fun r => classify_deletion_response r.uuid (respond r.uuid))) := by
  refine ⟨?_, ?_, fun ru => rfl, ?_, ?_, ?_⟩
  · by_cases h : kwargs.tasks_to_launch.isEmpty <;> simp [runJobCollateral, h]
  · intro h
    have he : kwargs.tasks_to_launch.isEmpty = false := by
      simpa [List.isEmpty_iff] using h
    simp [runJobCollateral, he]
  · intro ru code h200 h404
    simp [classify_deletion_response, h200, h404]
  · intro ju l hsel
    simp [delete_non_retained_pipeline_runs, hsel, delete_run_calls]
  · intro ju l hsel hju
    simp [updateJobPipelineRunCollateral, hju, delete_non_retained_pipeline_runs, hsel,
      delete_run_calls]

/-- Closed witness for C9: even when every deletion call answers 500, the
collateral still dispatches its one task, and a 404 is classified as a
success. -/
theorem C9_prune_failures_swallowed_witness :
    c9_witness_kwargs.tasks_to_launch ≠ [] ∧
    (runJobCollateral (fun _ => 500) c4_example_db c9_witness_kwargs).2 = [1] ∧
    classify_deletion_response 7 404 = .delete_success 7 := by
  have h := C9_prune_failures_swallowed c4_example_db c9_witness_kwargs
    ⟨none, none, false⟩ (fun _ => 500) (fun _ => 200)
  refine ⟨by decide, ?_, h.2.2.1 7⟩
  rw [h.2.1 (by decide)]
  decide

/-! ## Claims about cron evaluation (C8) -/

/-- A found element of a contiguous range is the first match: it matches, it
lies in the range, and nothing in the range before it matches. -/
theorem find?_range'_spec (p : Nat → Bool) :
    ∀ (len s t : Nat), (List.range' s len).find? p = some t →
      p t = true ∧ s ≤ t ∧ t < s + len ∧ ∀ x, s ≤ x → x < t → p x = false := by
  intro len
  induction len with
  | zero => intro s t h; cases h
  | succ n ih =>
    intro s t h
    rw [List.range'_succ] at h
    by_cases hp : p s
    · rw [List.find?_cons_of_pos _ hp] at h
      cases h
      exact ⟨hp, Nat.le_refl s, by omega, fun x hx1 hx2 => absurd hx1 (by omega)⟩
    · rw [List.find?_cons_of_neg _ hp] at h
      obtain ⟨h1, h2, h3, h4⟩ := ih (s + 1) t h
      refine ⟨h1, by omega, by omega, ?_⟩
      intro x hx1 hx2
      rcases Nat.eq_or_lt_of_le hx1 with rfl | hlt
      · simpa using hp
      · exact h4 x (by omega) hx2

/-- When some element of a contiguous range satisfies the predicate, the
search succeeds. -/
theorem find?_range'_isSome (p : Nat → Bool) (len s x : Nat)
    (hx1 : s ≤ x) (hx2 : x < s + len) (hp : p x = true) :
    ∃ t, (List.range' s len).find? p = some t := by
  cases h : (List.range' s len).find? p with
  | some t => exact ⟨t, rfl⟩
  | none =>
    have hc := List.find?_eq_none.mp h x (by rw [List.mem_range'_1]; omega)
    simp [hp] at hc

/-- A valid cron expression matches some instant in the day after any given
instant. -/
theorem cron_matches_exists (e : CronExpr) (he : croniter_is_valid e = true) (now : Nat) :
    ∃ x, now + 1 ≤ x ∧ x < now + 1 + 1440 ∧ cron_matches e x = true := by
  obtain ⟨mo, ho⟩ := e
  cases mo with
  | none =>
    cases ho with
    | none => exact ⟨now + 1, by omega, by omega, by simp [cron_matches]⟩
    | some h =>
      have hh : h < 24 := by simpa [croniter_is_valid] using he
      refine ⟨now + 1 + ((h * 60 + 1440 - (now + 1) % 1440) % 1440), by omega, by omega, ?_⟩
      have hmod : (now + 1 + ((h * 60 + 1440 - (now + 1) % 1440) % 1440)) % 1440 = h * 60 := by
        omega
      simp only [cron_matches, Bool.true_and, beq_iff_eq]
      omega
  | some m =>
    have hm : m < 60 := by
      have := he
      simp [croniter_is_valid] at this
      exact this.1
    cases ho with
    | none =>
      refine ⟨now + 1 + ((m + 60 - (now + 1) % 60) % 60), by omega, by omega, ?_⟩
      simp only [cron_matches, Bool.and_true, beq_iff_eq]
      omega
    | some h =>
      have hh : h < 24 := by
        have := he
        simp [croniter_is_valid] at this
        exact this.2
      refine ⟨now + 1 + ((h * 60 + m + 1440 - (now + 1) % 1440) % 1440), by omega, by omega, ?_⟩
      have hmod : (now + 1 + ((h * 60 + m + 1440 - (now + 1) % 1440) % 1440)) % 1440
          = h * 60 + m := by omega
      simp only [cron_matches, beq_iff_eq, Bool.and_eq_true]
      constructor <;> omega

/-- The modelled `get_next` returns the first matching instant strictly after
the given one. -/
theorem croniter_get_next_spec (e : CronExpr) (he : croniter_is_valid e = true)
    (now : Nat) :
    now < croniter_get_next e now ∧
    cron_matches e (croniter_get_next e now) = true ∧
    ∀ s, now < s → s < croniter_get_next e now → cron_matches e s = false := by
  obtain ⟨x, hx1, hx2, hx3⟩ := cron_matches_exists e he now
  obtain ⟨t, ht⟩ := find?_range'_isSome (cron_matches e) 1440 (now + 1) x hx1 hx2 hx3
  obtain ⟨h1, h2, h3, h4⟩ := find?_range'_spec (cron_matches e) 1440 (now + 1) t ht
  rw [croniter_get_next, ht, Option.getD_some]
  exact ⟨by omega, h1, fun s hs1 hs2 => h4 s (by omega) hs2⟩

/-! ## Claim C8 -/

/-- C8: pausing succeeds exactly on a STARTED job with a schedule, setting
PAUSED and clearing the next scheduled time; resuming succeeds exactly on a
PAUSED job with a schedule, setting STARTED and the first matching cron
instant strictly after the current time; in every other state both calls
leave the store untouched and report the conflict through their return value
(the functions are total, so no exception is possible). -/
theorem C8_pause_resume (now : Nat) (db : DB) (j : Job) (job_uuid : String)
    (hdb : db.jobs = [j]) (hu : j.uuid = job_uuid) :
    (∀ e, j.status = .STARTED → j.schedule = some e →
      pauseCronJobTransaction db job_uuid =
        ({ db with jobs := [{ j with status := .PAUSED, next_scheduled_time := none }] },
         true)) ∧
    (j.status ≠ .STARTED ∨ j.schedule = none →
      pauseCronJobTransaction db job_uuid = (db, false)) ∧
    (∀ e, j.status = .PAUSED → j.schedule = some e → croniter_is_valid e = true →
      resumeCronJobTransaction now db job_uuid =
        ({ db with jobs := [{ j with
            status := .STARTED,
            next_scheduled_time := some (croniter_get_next e now) }] },
         some (croniter_get_next e now)) ∧
      now < croniter_get_next e now ∧
      cron_matches e (croniter_get_next e now) = true ∧
      ∀ s, now < s → s < croniter_get_next e now → cron_matches e s = false) ∧
    (j.status ≠ .PAUSED ∨ j.schedule = none →
      resumeCronJobTransaction now db job_uuid = (db, none)) := by
  subst hu
  refine ⟨?_, ?_, ?_, ?_⟩
  · intro e hst hsch
    rw [pauseCronJobTransaction, hdb]
    rw [List.find?_cons_of_pos _ (by simp [hst, hsch])]
    simp [setJob, hdb]
  · intro hc
    rw [pauseCronJobTransaction, hdb]
    rw [List.find?_cons_of_neg _ ?_]
    · rfl
    · rcases hc with hc | hc <;> simp [hc]
  · intro e hst hsch hv
    constructor
    · rw [resumeCronJobTransaction, hdb]
      rw [List.find?_cons_of_pos _ (by simp [hst, hsch])]
      simp only [hsch]
      simp [setJob, hdb]
    · obtain ⟨h1, h2, h3⟩ := croniter_get_next_spec e hv now
      exact ⟨h1, h2, h3⟩
  · intro hc
    rw [resumeCronJobTransaction, hdb]
    rw [List.find?_cons_of_neg _ ?_]
    · rfl
    · rcases hc with hc | hc <;> simp [hc]

/-- Closed witness for C8: resuming the paused hourly job at minute 130 sets
STARTED and schedules the next top of the hour, minute 180. -/
theorem C8_pause_resume_witness :
    resumeCronJobTransaction 130 c8_witness_db "job" =
      ({ c8_witness_db with jobs := [{ baseJob with
          status := .STARTED, schedule := some ⟨some 0, none⟩,
          next_scheduled_time := some (croniter_get_next ⟨some 0, none⟩ 130) }] },
       some (croniter_get_next ⟨some 0, none⟩ 130)) ∧
    croniter_get_next ⟨some 0, none⟩ 130 = 180 := by
  have h := (C8_pause_resume 130 c8_witness_db _ "job" rfl rfl).2.2.1
    ⟨some 0, none⟩ rfl rfl (by decide)
  exact ⟨h.1, by decide⟩

/-! ## Claim C7 -/

/-- C7: on a confirmed one-off job (no schedule, not a DRAFT), any update
that supplies a cron schedule, parameters, env variables, strategy json or a
retention bound is rejected with a validation error; the error rolls the
transaction back, so the store is untouched. -/
theorem C7_oneoff_immutable (envValid : EnvVars → Bool)
    (missing_images : List String → List String) (now : Nat) (db : DB)
    (job_uuid : String) (u : JobUpdate) (j : Job)
    (hl : lookupJob db job_uuid = some j)
    (hsched : j.schedule = none) (hstat : j.status ≠ .DRAFT)
    (hedit : u.cron_schedule ≠ none ∨ u.parameters ≠ none ∨ u.env_variables ≠ none ∨
      u.strategy_json ≠ none ∨ u.max_retained_pipeline_runs ≠ none) :
    ∃ msg, updateJobTransaction envValid missing_images now db job_uuid u = .error msg := by
  rw [updateJobTransaction]
  simp only [hl]
  have hjs : (updName u j).schedule = none := by
    unfold updName; cases u.name <;> simp [hsched]
  have hjt : ¬ (updName u j).status = .DRAFT := by
    unfold updName; cases u.name <;> simpa using hstat
  cases hcs : u.cron_schedule with
  | some cs => exact ⟨_, by simp [bindE, updCron, hcs, hjs, hjt]; rfl⟩
  | none =>
    simp only [updCron, hcs, bindE]
    cases hps : u.parameters with
    | some ps => exact ⟨_, by simp [bindE, updParams, hps, hjs, hjt]; rfl⟩
    | none =>
      simp only [updParams, hps, bindE]
      cases hev : u.env_variables with
      | some ev => exact ⟨_, by simp [bindE, updEnv, hev, hjs, hjt]; rfl⟩
      | none =>
        simp only [updEnv, hev, bindE]
        cases hnt : u.next_scheduled_time with
        | some t => exact ⟨_, by simp [bindE, updNst, hnt, hjt]; rfl⟩
        | none =>
          simp only [updNst, hnt, bindE]
          have hframe : updDraftFrame u (updName u j) = updName u j := by
            rw [updDraftFrame, if_neg]
            simp [hjt]
          rw [hframe]
          cases hsj : u.strategy_json with
          | some sj => exact ⟨_, by simp [bindE, updStrategy, hsj, hjs, hjt]; rfl⟩
          | none =>
            simp only [updStrategy, hsj, bindE]
            cases hmr : u.max_retained_pipeline_runs with
            | some m => exact ⟨_, by simp [bindE, updMaxRetained, hmr, hjs, hjt]; rfl⟩
            | none =>
              rcases hedit with hc | hc | hc | hc | hc <;> simp_all

/-- Closed witness for C7: a parameter change on the confirmed (PENDING)
one-off witness job raises a validation error. -/
theorem C7_oneoff_immutable_witness :
    (lookupJob c7_witness_db "job").map (fun j => (j.schedule, j.status)) =
      some (none, .PENDING) ∧
    ∃ msg, updateJobTransaction (fun _ => true) (fun _ => []) 0 c7_witness_db "job"
      c7_witness_update = .error msg :=
  ⟨by decide,
   C7_oneoff_immutable (fun _ => true) (fun _ => []) 0 c7_witness_db "job"
     c7_witness_update { baseJob with status := .PENDING } (by decide) (by decide)
     (by decide) (Or.inr (Or.inl (by decide)))⟩

/-! ## Claim C10, counterexample part -/

/-- C10 as stated is refuted here: on a DRAFT job that stores a cron
schedule, an update supplying only `next_scheduled_time` (every other payload
key absent) succeeds and clears the stored `schedule` — a branch other than
the lines 988-995 one mutating a field that was not supplied in the
payload. -/
theorem C10_counterexample_unsupplied_field_mutated :
    c10_update = ⟨none, none, none, none, some 100, none, none, false⟩ ∧
    (lookupJob c10_db "job").map (fun j => (j.status, j.schedule)) =
      some (.DRAFT, some ⟨some 0, none⟩) ∧
    ((updateJobTransaction (fun _ => true) (fun _ => []) 0 c10_db "job"
        c10_update).toOption.map (fun d =>
          (lookupJob d "job").map (fun j => (j.schedule, j.next_scheduled_time)))) =
      some (some (none, some 100)) :=
  ⟨rfl, by decide, by decide⟩

/-! ## Claim C1: per-step lemmas -/

/-- Contiguous ranges concatenate. -/
theorem range'_append_nat (s m n : Nat) :
    List.range' s m ++ List.range' (s + m) n = List.range' s (m + n) := by
  have h := List.range'_append s m n 1
  rw [Nat.one_mul] at h
  rw [Nat.add_comm n m] at h
  exact h

/-- The creation loop of RunJob produces one run per parameter set, stamped
with consecutive global indices starting at the loop entry counter, the
execution counter as `job_run_index`, and consecutive batch positions. -/
theorem createRunsLoop_spec (j : Job) :
    ∀ (ps : List ParamSet) (ri tid tspr : Nat),
      (createRunsLoop j ri tid tspr ps).1.map (fun r => r.pipeline_run_index)
          = List.range' tspr ps.length ∧
      (createRunsLoop j ri tid tspr ps).1.map (fun r => r.job_run_index)
          = List.replicate ps.length j.total_scheduled_executions ∧
      (createRunsLoop j ri tid tspr ps).1.map (fun r => r.job_run_pipeline_run_index)
          = List.range' ri ps.length ∧
      (createRunsLoop j ri tid tspr ps).1.length = ps.length := by
  intro ps
  induction ps with
  | nil =>
    intro ri tid tspr
    simp [createRunsLoop]
  | cons p rest ih =>
    intro ri tid tspr
    obtain ⟨h1, h2, h3, h4⟩ := ih (ri + 1) (tid + 1) (tspr + 1)
    refine ⟨?_, ?_, ?_, ?_⟩
    · simp only [createRunsLoop, List.map_cons, h1, List.length_cons]
      rw [List.range'_succ]
    · simp only [createRunsLoop, List.map_cons, h2, h4, List.length_cons]
      rw [List.replicate_succ]
    · simp only [createRunsLoop, List.map_cons, h3, List.length_cons]
      rw [List.range'_succ]
    · simp only [createRunsLoop, List.length_cons, h4]

/-- One RunJob invocation on the only job of the store: the transaction
succeeds, the job row advances as `jobAfterRun` describes, the created rows
are appended to the run table, their global indices are the consecutive
block starting at the previous counter value, and all of them carry the
previous execution counter as `job_run_index`. -/
theorem runJobTransaction_step (db : DB) (j : Job) (hdb : db.jobs = [j]) :
    ∃ res : RunJobResult,
      runJobTransaction db j.uuid = some res ∧
      res.db.jobs = [jobAfterRun j] ∧
      res.db.runs = db.runs ++ res.new_runs ∧
      res.new_runs.map (fun r => r.pipeline_run_index)
        = List.range' j.total_scheduled_pipeline_runs j.parameters.length ∧
      res.new_runs.map (fun r => r.job_run_index)
        = List.replicate j.parameters.length j.total_scheduled_executions ∧
      res.new_runs.map (fun r => r.job_run_pipeline_run_index)
        = List.range' 0 j.parameters.length ∧
      res.new_runs.length = j.parameters.length := by
  rw [runJobTransaction]
  simp only [lookupJob_single db j hdb]
  by_cases hp : j.status = .PENDING
  · rw [if_pos hp]
    obtain ⟨h1, h2, h3, h4⟩ :=
      createRunsLoop_spec { j with status := .STARTED } j.parameters 0 db.next_task_id
        j.total_scheduled_pipeline_runs
    refine ⟨_, rfl, ?_, ?_, h1, h2, h3, h4⟩
    · have := setJob_single db j
        { { j with status := .STARTED } with
          total_scheduled_pipeline_runs :=
            j.total_scheduled_pipeline_runs + j.parameters.length,
          total_scheduled_executions := j.total_scheduled_executions + 1 } hdb rfl
      simp only [this]
      rw [jobAfterRun, if_pos hp]
    · rfl
  · rw [if_neg hp]
    obtain ⟨h1, h2, h3, h4⟩ :=
      createRunsLoop_spec j j.parameters 0 db.next_task_id
        j.total_scheduled_pipeline_runs
    refine ⟨_, rfl, ?_, ?_, h1, h2, h3, h4⟩
    · have := setJob_single db j
        { j with
          total_scheduled_pipeline_runs :=
            j.total_scheduled_pipeline_runs + j.parameters.length,
          total_scheduled_executions := j.total_scheduled_executions + 1 } hdb rfl
      simp only [this]
      rw [jobAfterRun, if_neg hp]
    · rfl

/-- The status updater preserves the indices of the run table. -/
theorem update_run_status_db_index_map (db : DB) (f : PipelineRun → Bool)
    (new : RunStatus) :
    (update_run_status_db db f new).runs.map (fun r => r.pipeline_run_index)
      = db.runs.map (fun r => r.pipeline_run_index) := by
  simp only [update_run_status_db, List.map_map]
  refine List.map_congr_left ?_
  intro r _
  simp only [Function.comp]
  split <;> rfl

/-- The single-run abort helper preserves the indices of the run table. -/
theorem abortRunRows_index_map (db : DB) (ru : Nat) :
    (abortRunRows db ru).runs.map (fun r => r.pipeline_run_index)
      = db.runs.map (fun r => r.pipeline_run_index) := by
  rw [abortRunRows]
  exact update_run_status_db_index_map db _ .ABORTED

/-- The single-run abort primitive keeps the job table and the run indices. -/
theorem abortPipelineRun_step (db : DB) (ru : Nat) :
    (abortPipelineRunTransaction db ru).1.jobs = db.jobs ∧
    (abortPipelineRunTransaction db ru).1.runs.map (fun r => r.pipeline_run_index)
      = db.runs.map (fun r => r.pipeline_run_index) := by
  cases h : db.runs.find? (fun r => r.uuid == ru) with
  | none =>
    simp [abortPipelineRunTransaction, h]
  | some r =>
    simp only [abortPipelineRunTransaction, h]
    by_cases ha : r.status.isActive
    · rw [if_pos ha]
      exact ⟨abortRunRows_jobs db ru, abortRunRows_index_map db ru⟩
    · rw [if_neg ha]
      exact ⟨rfl, rfl⟩

/-- Reporting a run status on the only job of the store always succeeds and
only mutates run statuses and possibly the job status: the job identity,
parameter list and both counters survive, and so do the run indices. -/
theorem updateJobPipelineRun_step (db : DB) (j : Job) (hdb : db.jobs = [j])
    (ru : Nat) (ns : RunStatus) :
    ∃ dbk : DB × UpdateRunKwargs,
      updateJobPipelineRunTransaction db j.uuid ru ns = some dbk ∧
      ∃ j1 : Job, dbk.1.jobs = [j1] ∧
        j1.uuid = j.uuid ∧ j1.parameters = j.parameters ∧
        j1.total_scheduled_executions = j.total_scheduled_executions ∧
        j1.total_scheduled_pipeline_runs = j.total_scheduled_pipeline_runs ∧
        dbk.1.runs.map (fun r => r.pipeline_run_index)
          = db.runs.map (fun r => r.pipeline_run_index) := by
  have hjobs1 : (update_run_status_db db
      (fun r => r.job_uuid == j.uuid && r.uuid == ru) ns).jobs = [j] := by
    rw [update_run_status_db_jobs, hdb]
  have hidx := update_run_status_db_index_map db
    (fun r => r.job_uuid == j.uuid && r.uuid == ru) ns
  rw [updateJobPipelineRunTransaction]
  by_cases hterm : ns.isEndState
  · rw [if_pos hterm]
    simp only [lookupJob_single _ j hjobs1]
    by_cases hs : j.schedule = none
    · rw [if_pos hs]
      by_cases hc : runs_to_complete_count (update_run_status_db db
          (fun r => r.job_uuid == j.uuid && r.uuid == ru) ns) j.uuid = 0
      · rw [if_pos hc]
        refine ⟨_, rfl, ?_⟩
        by_cases hend : j.status.isEndState
        · refine ⟨j, ?_, rfl, rfl, rfl, rfl, hidx⟩
          rw [hjobs1]
          simp [hend]
        · refine ⟨{ j with status := .SUCCESS }, ?_, rfl, rfl, rfl, rfl, hidx⟩
          rw [hjobs1]
          simp [hend]
      · rw [if_neg hc]
        exact ⟨_, rfl, j, hjobs1, rfl, rfl, rfl, rfl, hidx⟩
    · rw [if_neg hs]
      exact ⟨_, rfl, j, hjobs1, rfl, rfl, rfl, rfl, hidx⟩
  · rw [if_neg hterm]
    exact ⟨_, rfl, j, hjobs1, rfl, rfl, rfl, rfl, hidx⟩

/-- Aborting one run and re-checking job completion on the only job of the
store: the transaction succeeds, and the job identity, parameters, counters
and run indices survive. -/
theorem abortJobPipelineRun_step (db : DB) (j : Job) (hdb : db.jobs = [j]) (ru : Nat) :
    ∃ dbb : DB × Bool,
      abortJobPipelineRunTransaction db j.uuid ru = some dbb ∧
      ∃ j1 : Job, dbb.1.jobs = [j1] ∧
        j1.uuid = j.uuid ∧ j1.parameters = j.parameters ∧
        j1.total_scheduled_executions = j.total_scheduled_executions ∧
        j1.total_scheduled_pipeline_runs = j.total_scheduled_pipeline_runs ∧
        dbb.1.runs.map (fun r => r.pipeline_run_index)
          = db.runs.map (fun r => r.pipeline_run_index) := by
  rw [abortJobPipelineRunTransaction]
  obtain ⟨habj, habi⟩ := abortPipelineRun_step db ru
  by_cases hcould : (abortPipelineRunTransaction db ru).2
  · rw [if_pos hcould]
    have hj1 : (abortPipelineRunTransaction db ru).1.jobs = [j] := by rw [habj, hdb]
    obtain ⟨dbk, hdbk, j1, hj, h1, h2, h3, h4, h5⟩ :=
      updateJobPipelineRun_step (abortPipelineRunTransaction db ru).1 j hj1 ru .ABORTED
    rw [hdbk]
    exact ⟨(dbk.1, true), rfl, j1, hj, h1, h2, h3, h4, by rw [h5, habi]⟩
  · rw [if_neg hcould]
    exact ⟨(db, false), rfl, j, hdb, rfl, rfl, rfl, rfl, rfl⟩

/-- Deleting one run through the cascade on the only job of the store: the
transaction succeeds, the job identity, parameters and counters survive, and
every surviving run index was already present before. -/
theorem deleteJobPipelineRun_step (db : DB) (j : Job) (hdb : db.jobs = [j]) (ru : Nat) :
    ∃ dbb : DB × Bool,
      deleteJobPipelineRunTransaction db j.uuid ru = some dbb ∧
      ∃ j1 : Job, dbb.1.jobs = [j1] ∧
        j1.uuid = j.uuid ∧ j1.parameters = j.parameters ∧
        j1.total_scheduled_executions = j.total_scheduled_executions ∧
        j1.total_scheduled_pipeline_runs = j.total_scheduled_pipeline_runs ∧
        ∀ i ∈ dbb.1.runs.map (fun r => r.pipeline_run_index),
          i ∈ db.runs.map (fun r => r.pipeline_run_index) := by
  rw [deleteJobPipelineRunTransaction]
  rw [if_neg (by simp [lookupJob_single db j hdb])]
  cases hr : db.runs.find? (fun r => r.uuid == ru) with
  | none =>
    rw [if_pos (by simp [hr])]
    exact ⟨(db, false), rfl, j, hdb, rfl, rfl, rfl, rfl, fun i hi => hi⟩
  | some r =>
    rw [if_neg (by simp [hr])]
    obtain ⟨dbb, hdbb, j1, hj, h1, h2, h3, h4, h5⟩ :=
      abortJobPipelineRun_step db j hdb ru
    rw [hdbb]
    refine ⟨_, rfl, j1, hj, h1, h2, h3, h4, ?_⟩
    intro i hi
    rw [← h5]
    simp only [List.mem_map] at hi ⊢
    obtain ⟨x, hx1, hx2⟩ := hi
    exact ⟨x, List.mem_of_mem_filter hx1, hx2⟩

/-- A parameter update through UpdateJob on the only job of the store either
errors (rolled back, store unchanged) or rewrites the parameters (clearing
schedule data on a draft); it never touches the run table, the created-run
batch is empty, and the job identity and both counters survive. -/
theorem setParamsOp_step (db : DB) (j : Job) (hdb : db.jobs = [j]) (ps : List ParamSet) :
    ∃ j1 : Job,
      (applyOp db j.uuid (.setParamsOp ps)).1.jobs = [j1] ∧
      (applyOp db j.uuid (.setParamsOp ps)).1.runs = db.runs ∧
      (applyOp db j.uuid (.setParamsOp ps)).2 = [] ∧
      j1.uuid = j.uuid ∧
      j1.total_scheduled_executions = j.total_scheduled_executions ∧
      j1.total_scheduled_pipeline_runs = j.total_scheduled_pipeline_runs := by
  simp only [applyOp, updateJobTransaction, lookupJob_single db j hdb, paramsOnlyUpdate,
    updName, updCron, updParams, updEnv, updNst, updStrategy, updMaxRetained,
    updConfirmDraft, bindE]
  by_cases hg : j.schedule = none ∧ ¬j.status = .DRAFT
  · rw [if_pos hg]
    exact ⟨j, hdb, rfl, rfl, rfl, rfl, rfl⟩
  · rw [if_neg hg]
    simp only [updDraftFrame, Bool.not_false, if_true, and_true, true_and]
    split
    · exact ⟨_, setJob_single db j _ hdb rfl, rfl, rfl, rfl, rfl⟩
    · exact ⟨_, setJob_single db j _ hdb rfl, rfl, rfl, rfl, rfl⟩

/-- Invariant of any operation sequence on the only job of the store: the
job survives; its global run counter advances by the total number of
parameter sets seen by the Run invocations; its execution counter advances
once per Run invocation; the created runs carry the consecutive block of
global indices and the staircase of execution counters; and every surviving
run index was created by some Run invocation of the sequence (when the store
started with these) — deletions never recycle an index. -/
theorem applyOps_spec (job : String) :
    ∀ (ops : List JobOp) (db : DB) (j : Job), db.jobs = [j] → j.uuid = job →
      ∃ jf : Job,
        (applyOps db job ops).1.jobs = [jf] ∧ jf.uuid = job ∧
        jf.total_scheduled_pipeline_runs
          = j.total_scheduled_pipeline_runs + (paramCounts db job ops).sum ∧
        jf.total_scheduled_executions
          = j.total_scheduled_executions + (paramCounts db job ops).length ∧
        (paramCounts db job ops).length = ops.countP (fun op => op == JobOp.runOp) ∧
        (applyOps db job ops).2.map (fun r => r.pipeline_run_index)
          = List.range' j.total_scheduled_pipeline_runs (paramCounts db job ops).sum ∧
        (applyOps db job ops).2.map (fun r => r.job_run_index)
          = stairsFrom j.total_scheduled_executions (paramCounts db job ops) ∧
        ∀ i ∈ (applyOps db job ops).1.runs.map (fun r => r.pipeline_run_index),
          i ∈ db.runs.map (fun r => r.pipeline_run_index) ∨
          i ∈ (applyOps db job ops).2.map (fun r => r.pipeline_run_index) := by
  intro ops
  induction ops with
  | nil =>
    intro db j hdb hu
    subst hu
    refine ⟨j, hdb, rfl, ?_, ?_, rfl, ?_, ?_, ?_⟩ <;>
      simp [applyOps, paramCounts, stairsFrom]
  | cons op rest ih =>
    intro db j hdb hu
    subst hu
    cases op with
    | runOp =>
      obtain ⟨res, hres, hjobs, hruns, hidx, hjri, _, hlen⟩ :=
        runJobTransaction_step db j hdb
      have hop : applyOp db j.uuid JobOp.runOp = (res.db, res.new_runs) := by
        simp only [applyOp, hres]
      obtain ⟨jf, i1, i2, i3, i4, i5, i6, i7, i8⟩ :=
        ih res.db (jobAfterRun j) hjobs rfl
      have hpc : paramCounts db j.uuid (JobOp.runOp :: rest)
          = j.parameters.length :: paramCounts res.db j.uuid rest := by
        simp only [paramCounts, lookupJob_single db j hdb, hop]
        rfl
      have happ1 : (applyOps db j.uuid (JobOp.runOp :: rest)).1
          = (applyOps res.db j.uuid rest).1 := by
        simp only [applyOps, hop]
      have happ2 : (applyOps db j.uuid (JobOp.runOp :: rest)).2
          = res.new_runs ++ (applyOps res.db j.uuid rest).2 := by
        simp only [applyOps, hop]
      have hAe : (jobAfterRun j).total_scheduled_executions
          = j.total_scheduled_executions + 1 := rfl
      have hAt : (jobAfterRun j).total_scheduled_pipeline_runs
          = j.total_scheduled_pipeline_runs + j.parameters.length := rfl
      refine ⟨jf, by rw [happ1]; exact i1, i2, ?_, ?_, ?_, ?_, ?_, ?_⟩
      · rw [hpc, List.sum_cons, i3, hAt]
        omega
      · rw [hpc, List.length_cons, i4, hAe]
        omega
      · rw [hpc, List.length_cons, List.countP_cons_of_pos _ _ (by rfl), i5]
      · rw [happ2, List.map_append, hidx, hpc, List.sum_cons, i6, hAt]
        exact range'_append_nat _ _ _
      · rw [happ2, List.map_append, hjri, hpc, i7, hAe]
        rfl
      · intro i hi
        rw [happ1] at hi
        rcases i8 i hi with hleft | hright
        · rw [hruns, List.map_append] at hleft
          rcases List.mem_append.mp hleft with h | h
          · exact Or.inl h
          · refine Or.inr ?_
            rw [happ2, List.map_append]
            exact List.mem_append.mpr (Or.inl h)
        · refine Or.inr ?_
          rw [happ2, List.map_append]
          exact List.mem_append.mpr (Or.inr hright)
    | setParamsOp ps =>
      obtain ⟨j1, s1, s2, s3, s4, s5, s6⟩ := setParamsOp_step db j hdb ps
      obtain ⟨jf, i1, i2, i3, i4, i5, i6, i7, i8⟩ :=
        ih (applyOp db j.uuid (JobOp.setParamsOp ps)).1 j1 s1 s4
      have hpc : paramCounts db j.uuid (JobOp.setParamsOp ps :: rest)
          = paramCounts (applyOp db j.uuid (JobOp.setParamsOp ps)).1 j.uuid rest := by
        simp only [paramCounts, List.nil_append]
      have happ1 : (applyOps db j.uuid (JobOp.setParamsOp ps :: rest)).1
          = (applyOps (applyOp db j.uuid (JobOp.setParamsOp ps)).1 j.uuid rest).1 := by
        simp only [applyOps]
      have happ2 : (applyOps db j.uuid (JobOp.setParamsOp ps :: rest)).2
          = (applyOps (applyOp db j.uuid (JobOp.setParamsOp ps)).1 j.uuid rest).2 := by
        simp only [applyOps, s3, List.nil_append]
      refine ⟨jf, by rw [happ1]; exact i1, i2, ?_, ?_, ?_, ?_, ?_, ?_⟩
      · rw [hpc, i3, s6]
      · rw [hpc, i4, s5]
      · rw [hpc, i5, List.countP_cons_of_neg _ _ (by simp)]
      · rw [happ2, hpc, i6, s6]
      · rw [happ2, hpc, i7, s5]
      · intro i hi
        rw [happ1] at hi
        rcases i8 i hi with hleft | hright
        · rw [s2] at hleft
          exact Or.inl hleft
        · rw [happ2]
          exact Or.inr hright
    | deleteRunOp ru =>
      obtain ⟨dbb, hdbb, j1, d1, d2, d3, d4, d5, d6⟩ :=
        deleteJobPipelineRun_step db j hdb ru
      have hop : applyOp db j.uuid (JobOp.deleteRunOp ru) = (dbb.1, []) := by
        simp only [applyOp, hdbb]
      obtain ⟨jf, i1, i2, i3, i4, i5, i6, i7, i8⟩ :=
        ih dbb.1 j1 d1 d2
      have hpc : paramCounts db j.uuid (JobOp.deleteRunOp ru :: rest)
          = paramCounts dbb.1 j.uuid rest := by
        simp only [paramCounts, hop, List.nil_append]
      have happ1 : (applyOps db j.uuid (JobOp.deleteRunOp ru :: rest)).1
          = (applyOps dbb.1 j.uuid rest).1 := by
        simp only [applyOps, hop]
      have happ2 : (applyOps db j.uuid (JobOp.deleteRunOp ru :: rest)).2
          = (applyOps dbb.1 j.uuid rest).2 := by
        simp only [applyOps, hop, List.nil_append]
      refine ⟨jf, by rw [happ1]; exact i1, i2, ?_, ?_, ?_, ?_, ?_, ?_⟩
      · rw [hpc, i3, d5]
      · rw [hpc, i4, d4]
      · rw [hpc, i5, List.countP_cons_of_neg _ _ (by simp)]
      · rw [happ2, hpc, i6, d5]
      · rw [happ2, hpc, i7, d4]
      · intro i hi
        rw [happ1] at hi
        rcases i8 i hi with hleft | hright
        · exact Or.inl (d6 i hleft)
        · rw [happ2]
          exact Or.inr hright

/-- C1: starting from a fresh job, over any sequence of Run invocations
(interleaved with parameter updates and run deletions), the final
`total_scheduled_pipeline_runs` equals the sum over the Run invocations of
the parameter-set count at each invocation; the created runs carry exactly
the global indices `0 .. total-1`, dense and strictly increasing in creation
order with no gaps or repeats; a surviving run always carries an index that
was handed out at creation, so indices are never reused after deletions;
every run of one invocation carries the execution counter at the start of
that invocation as its `job_run_index`; and the execution counter advances
exactly once per invocation. -/
theorem C1_counters_and_indices (db : DB) (j : Job) (ops : List JobOp)
    (hdb : db.jobs = [j]) (hruns : db.runs = [])
    (h0 : j.total_scheduled_pipeline_runs = 0)
    (he : j.total_scheduled_executions = 0) :
    ∃ jf : Job,
      (applyOps db j.uuid ops).1.jobs = [jf] ∧
      jf.total_scheduled_pipeline_runs = (paramCounts db j.uuid ops).sum ∧
      jf.total_scheduled_executions = (paramCounts db j.uuid ops).length ∧
      (paramCounts db j.uuid ops).length = ops.countP (fun op => op == JobOp.runOp) ∧
      (applyOps db j.uuid ops).2.map (fun r => r.pipeline_run_index)
        = List.range jf.total_scheduled_pipeline_runs ∧
      ((applyOps db j.uuid ops).2.map (fun r => r.pipeline_run_index)).Nodup ∧
      (applyOps db j.uuid ops).2.map (fun r => r.job_run_index)
        = stairsFrom 0 (paramCounts db j.uuid ops) ∧
      ∀ r ∈ (applyOps db j.uuid ops).1.runs,
        r.pipeline_run_index ∈ (applyOps db j.uuid ops).2.map
          (fun x => x.pipeline_run_index) := by
  obtain ⟨jf, i1, _, i3, i4, i5, i6, i7, i8⟩ := applyOps_spec j.uuid ops db j hdb rfl
  rw [h0] at i3 i6
  rw [he] at i4 i7
  rw [Nat.zero_add] at i3 i4
  refine ⟨jf, i1, i3, i4, i5, ?_, ?_, i7, ?_⟩
  · rw [i6, List.range_eq_range', i3]
  · rw [i6]
    exact List.nodup_range' _ _
  · intro r hr
    rcases i8 r.pipeline_run_index (List.mem_map_of_mem _ hr) with hl | hr2
    · rw [hruns] at hl
      cases hl
    · exact hr2

/-- Closed witness for C1: on the fresh witness job, the five-step sequence
(run with two parameter sets, attempt a parameter change, run, delete run 0,
run) creates six runs with the dense indices 0..5, the staircase of
execution counters, and every surviving index among the created ones. -/
theorem C1_counters_and_indices_witness :
    ((applyOps c1_witness_db "job" c1_witness_ops).2.map (fun r => r.pipeline_run_index)
       = List.range 6) ∧
    ((applyOps c1_witness_db "job" c1_witness_ops).2.map (fun r => r.job_run_index)
       = [0, 0, 1, 1, 2, 2]) ∧
    ∀ r ∈ (applyOps c1_witness_db "job" c1_witness_ops).1.runs,
      r.pipeline_run_index ∈ (applyOps c1_witness_db "job" c1_witness_ops).2.map
        (fun x => x.pipeline_run_index) := by
  obtain ⟨jf, i1, i3, i4, i5, i6, i7, i8, i9⟩ :=
    C1_counters_and_indices c1_witness_db c1_witness_job c1_witness_ops rfl rfl rfl rfl
  have hu : c1_witness_job.uuid = "job" := rfl
  rw [hu] at i3 i6 i8 i9
  have h6 : jf.total_scheduled_pipeline_runs = 6 := by
    rw [i3]
    decide
  rw [h6] at i6
  have hst : stairsFrom 0 (paramCounts c1_witness_db "job" c1_witness_ops)
      = [0, 0, 1, 1, 2, 2] := by decide
  rw [hst] at i8
  exact ⟨i6, i8, i9⟩

/-! ## Claim C10, amended part: field frames of the UpdateJob branches -/

/-- Inversion of the Except chain. -/
theorem bindE_ok_inv {α β : Type} (x : Except String α) (f : α → Except String β)
    {b : β} (h : bindE x f = .ok b) : ∃ a, x = .ok a ∧ f a = .ok b := by
  cases x with
  | error e => simp [bindE] at h
  | ok a => exact ⟨a, rfl, h⟩

/-- Frame of the name branch. -/
theorem updName_fields (u : JobUpdate) (j : Job) :
    jobBase (updName u j) = jobBase j ∧
    (updName u j).parameters = j.parameters ∧
    (updName u j).env_variables = j.env_variables ∧
    (updName u j).strategy_json = j.strategy_json ∧
    (updName u j).max_retained_pipeline_runs = j.max_retained_pipeline_runs ∧
    (updName u j).schedule = j.schedule ∧
    (updName u j).next_scheduled_time = j.next_scheduled_time ∧
    (u.name = none → (updName u j).name = j.name) := by
  cases hn : u.name <;> simp [updName, hn, jobBase]

/-- Frame of the cron branch. -/
theorem updCron_fields (now : Nat) (u : JobUpdate) (j j' : Job)
    (h : updCron now u j = .ok j') :
    jobBase j' = jobBase j ∧
    j'.name = j.name ∧
    j'.parameters = j.parameters ∧
    j'.env_variables = j.env_variables ∧
    j'.strategy_json = j.strategy_json ∧
    j'.max_retained_pipeline_runs = j.max_retained_pipeline_runs ∧
    (u.cron_schedule = none →
      j'.schedule = j.schedule ∧ j'.next_scheduled_time = j.next_scheduled_time) ∧
    (∀ cs, u.cron_schedule = some cs →
      j'.schedule = some cs ∧
      j'.next_scheduled_time = some (croniter_get_next cs now)) := by
  cases hcs : u.cron_schedule with
  | none =>
    simp only [updCron, hcs] at h
    cases h
    simp
  | some cs =>
    simp only [updCron, hcs] at h
    split at h
    · cases h
    · split at h
      · cases h
      · cases h
        simp [jobBase, hcs]

/-- Frame of the parameters branch. -/
theorem updParams_fields (u : JobUpdate) (j j' : Job)
    (h : updParams u j = .ok j') :
    jobBase j' = jobBase j ∧
    j'.name = j.name ∧
    j'.env_variables = j.env_variables ∧
    j'.strategy_json = j.strategy_json ∧
    j'.max_retained_pipeline_runs = j.max_retained_pipeline_runs ∧
    j'.schedule = j.schedule ∧
    j'.next_scheduled_time = j.next_scheduled_time ∧
    (u.parameters = none → j'.parameters = j.parameters) := by
  cases hps : u.parameters with
  | none =>
    simp only [updParams, hps] at h
    cases h
    simp
  | some ps =>
    simp only [updParams, hps] at h
    split at h
    · cases h
    · cases h
      simp [jobBase, hps]

/-- Frame of the env-variables branch. -/
theorem updEnv_fields (envValid : EnvVars → Bool) (u : JobUpdate) (j j' : Job)
    (h : updEnv envValid u j = .ok j') :
    jobBase j' = jobBase j ∧
    j'.name = j.name ∧
    j'.parameters = j.parameters ∧
    j'.strategy_json = j.strategy_json ∧
    j'.max_retained_pipeline_runs = j.max_retained_pipeline_runs ∧
    j'.schedule = j.schedule ∧
    j'.next_scheduled_time = j.next_scheduled_time ∧
    (u.env_variables = none → j'.env_variables = j.env_variables) := by
  cases hev : u.env_variables with
  | none =>
    simp only [updEnv, hev] at h
    cases h
    simp
  | some ev =>
    simp only [updEnv, hev] at h
    split at h
    · cases h
    · split at h
      · cases h
      · cases h
        simp [jobBase, hev]

/-- Frame of the next-scheduled-time branch: only a DRAFT passes it with a
supplied time, in which case the stored schedule is cleared when no cron
schedule is supplied alongside. -/
theorem updNst_fields (u : JobUpdate) (j j' : Job)
    (h : updNst u j = .ok j') :
    jobBase j' = jobBase j ∧
    j'.name = j.name ∧
    j'.parameters = j.parameters ∧
    j'.env_variables = j.env_variables ∧
    j'.strategy_json = j.strategy_json ∧
    j'.max_retained_pipeline_runs = j.max_retained_pipeline_runs ∧
    (u.next_scheduled_time = none →
      j'.schedule = j.schedule ∧ j'.next_scheduled_time = j.next_scheduled_time) ∧
    (∀ t, u.next_scheduled_time = some t →
      j.status = .DRAFT ∧ j'.next_scheduled_time = some t ∧
      (u.cron_schedule = none → j'.schedule = none) ∧
      (u.cron_schedule ≠ none → j.schedule = none ∧ j'.schedule = j.schedule)) := by
  cases hnt : u.next_scheduled_time with
  | none =>
    simp only [updNst, hnt] at h
    cases h
    simp
  | some t =>
    simp only [updNst, hnt] at h
    split at h
    · cases h
    · split at h
      · cases h
      · rename_i hdraft hguard
        cases h
        refine ⟨?_, ?_, ?_, ?_, ?_, ?_, by simp, ?_⟩
        · by_cases hcn : u.cron_schedule = none <;> simp [hcn, jobBase]
        · by_cases hcn : u.cron_schedule = none <;> simp [hcn]
        · by_cases hcn : u.cron_schedule = none <;> simp [hcn]
        · by_cases hcn : u.cron_schedule = none <;> simp [hcn]
        · by_cases hcn : u.cron_schedule = none <;> simp [hcn]
        · by_cases hcn : u.cron_schedule = none <;> simp [hcn]
        · intro t2 ht2
          cases ht2
          refine ⟨by simpa using hdraft, by simp, fun hcn => by simp [hcn], ?_⟩
          intro hcn
          have hsn : j.schedule = none := by
            by_contra hne
            exact hguard ⟨hne, hcn⟩
          simp [hcn, hsn]

/-- Frame of the draft-reschedule branch at lines 988-995. -/
theorem updDraftFrame_fields (u : JobUpdate) (j : Job) :
    jobBase (updDraftFrame u j) = jobBase j ∧
    (updDraftFrame u j).name = j.name ∧
    (updDraftFrame u j).parameters = j.parameters ∧
    (updDraftFrame u j).env_variables = j.env_variables ∧
    (updDraftFrame u j).strategy_json = j.strategy_json ∧
    (updDraftFrame u j).max_retained_pipeline_runs = j.max_retained_pipeline_runs ∧
    ((j.status = .DRAFT ∧ u.next_scheduled_time = none ∧ u.cron_schedule = none) →
      (updDraftFrame u j).schedule = none ∧
      (updDraftFrame u j).next_scheduled_time = none) ∧
    (¬(j.status = .DRAFT ∧ u.next_scheduled_time = none ∧ u.cron_schedule = none) →
      (updDraftFrame u j).schedule = j.schedule ∧
      (updDraftFrame u j).next_scheduled_time = j.next_scheduled_time) := by
  by_cases hc : j.status = .DRAFT ∧ u.next_scheduled_time = none ∧ u.cron_schedule = none
  · rw [updDraftFrame, if_pos hc]
    simp [jobBase, hc]
  · rw [updDraftFrame, if_neg hc]
    simp [jobBase, hc]

/-- Frame of the strategy branch. -/
theorem updStrategy_fields (u : JobUpdate) (j j' : Job)
    (h : updStrategy u j = .ok j') :
    jobBase j' = jobBase j ∧
    j'.name = j.name ∧
    j'.parameters = j.parameters ∧
    j'.env_variables = j.env_variables ∧
    j'.max_retained_pipeline_runs = j.max_retained_pipeline_runs ∧
    j'.schedule = j.schedule ∧
    j'.next_scheduled_time = j.next_scheduled_time ∧
    (u.strategy_json = none → j'.strategy_json = j.strategy_json) := by
  cases hsj : u.strategy_json with
  | none =>
    simp only [updStrategy, hsj] at h
    cases h
    simp
  | some sj =>
    simp only [updStrategy, hsj] at h
    split at h
    · cases h
    · cases h
      simp [jobBase, hsj]

/-- Frame of the retention branch. -/
theorem updMaxRetained_fields (u : JobUpdate) (j j' : Job)
    (h : updMaxRetained u j = .ok j') :
    jobBase j' = jobBase j ∧
    j'.name = j.name ∧
    j'.parameters = j.parameters ∧
    j'.env_variables = j.env_variables ∧
    j'.strategy_json = j.strategy_json ∧
    j'.schedule = j.schedule ∧
    j'.next_scheduled_time = j.next_scheduled_time ∧
    (u.max_retained_pipeline_runs = none →
      j'.max_retained_pipeline_runs = j.max_retained_pipeline_runs) := by
  cases hmr : u.max_retained_pipeline_runs with
  | none =>
    simp only [updMaxRetained, hmr] at h
    cases h
    simp
  | some m =>
    simp only [updMaxRetained, hmr] at h
    split at h
    · cases h
    · split at h
      · cases h
      · cases h
        simp [jobBase, hmr]

/-- C10, amended: a successful UpdateJob transaction on a DRAFT whose payload
carries neither `cron_schedule` nor `next_scheduled_time` always clears the
stored schedule and scheduled time, even without `confirm_draft`; and for
updates without `confirm_draft` no branch mutates a field that was not
supplied, with exactly two exceptions — supplying `cron_schedule` also
recomputes `next_scheduled_time`, and supplying `next_scheduled_time`
without a cron schedule also clears the stored schedule. -/
theorem C10_draft_reschedule_frame (envValid : EnvVars → Bool)
    (missing_images : List String → List String) (now : Nat) (db db' : DB)
    (j : Job) (job_uuid : String) (u : JobUpdate)
    (hdb : db.jobs = [j]) (hu : j.uuid = job_uuid)
    (hok : updateJobTransaction envValid missing_images now db job_uuid u = .ok db') :
    (j.status = .DRAFT → u.cron_schedule = none → u.next_scheduled_time = none →
      ∃ jf, db'.jobs = [jf] ∧ jf.schedule = none ∧ jf.next_scheduled_time = none) ∧
    (u.confirm_draft = false →
      ∃ jf, db'.jobs = [jf] ∧
        db'.runs = db.runs ∧
        jf.status = j.status ∧
        jf.total_scheduled_executions = j.total_scheduled_executions ∧
        jf.total_scheduled_pipeline_runs = j.total_scheduled_pipeline_runs ∧
        jf.last_scheduled_time = j.last_scheduled_time ∧
        (u.name = none → jf.name = j.name) ∧
        (u.parameters = none → jf.parameters = j.parameters) ∧
        (u.env_variables = none → jf.env_variables = j.env_variables) ∧
        (u.strategy_json = none → jf.strategy_json = j.strategy_json) ∧
        (u.max_retained_pipeline_runs = none →
          jf.max_retained_pipeline_runs = j.max_retained_pipeline_runs) ∧
        (j.status ≠ .DRAFT → u.cron_schedule = none → u.next_scheduled_time = none →
          jf.schedule = j.schedule ∧ jf.next_scheduled_time = j.next_scheduled_time) ∧
        (∀ cs, u.cron_schedule = some cs →
          jf.schedule = some cs ∧
          jf.next_scheduled_time = some (croniter_get_next cs now)) ∧
        (∀ t, u.next_scheduled_time = some t → u.cron_schedule = none →
          jf.schedule = none ∧ jf.next_scheduled_time = some t)) := by
  subst hu
  rw [updateJobTransaction] at hok
  simp only [lookupJob_single db j hdb] at hok
  obtain ⟨j2, h2, hok⟩ := bindE_ok_inv _ _ hok
  obtain ⟨j3, h3, hok⟩ := bindE_ok_inv _ _ hok
  obtain ⟨j4, h4, hok⟩ := bindE_ok_inv _ _ hok
  obtain ⟨j5, h5, hok⟩ := bindE_ok_inv _ _ hok
  obtain ⟨j7, h7, hok⟩ := bindE_ok_inv _ _ hok
  obtain ⟨j8, h8, hok⟩ := bindE_ok_inv _ _ hok
  obtain ⟨B0, P0, E0, S0, M0, Sc0, Nt0, Nm0⟩ := updName_fields u j
  obtain ⟨B2, N2, P2, E2, S2, M2, C2n, C2s⟩ := updCron_fields now u (updName u j) j2 h2
  obtain ⟨B3, N3, E3, S3, M3, Sc3, Nt3, P3⟩ := updParams_fields u j2 j3 h3
  obtain ⟨B4, N4, P4, S4, M4, Sc4, Nt4, E4⟩ := updEnv_fields envValid u j3 j4 h4
  obtain ⟨B5, N5, P5, E5, S5, M5, T5n, T5s⟩ := updNst_fields u j4 j5 h5
  obtain ⟨B6, N6, P6, E6, S6, M6, F6y, F6n⟩ := updDraftFrame_fields u j5
  obtain ⟨B7, N7, P7, E7, M7, Sc7, Nt7, S7⟩ :=
    updStrategy_fields u (updDraftFrame u j5) j7 h7
  obtain ⟨B8, N8, P8, E8, S8, Sc8, Nt8, M8⟩ := updMaxRetained_fields u j7 j8 h8
  have hBt : jobBase j8 = jobBase j := by rw [B8, B7, B6, B5, B4, B3, B2, B0]
  simp only [jobBase, Prod.mk.injEq] at hBt
  obtain ⟨huuid, hstat, hlast, hexec, htspr⟩ := hBt
  have hstat5 : j5.status = j.status := by
    have hb : jobBase j5 = jobBase j := by rw [B5, B4, B3, B2, B0]
    simp only [jobBase, Prod.mk.injEq] at hb
    exact hb.2.1
  -- schedule and next-scheduled-time of the final field-updated row
  have hsched_none : j.status = .DRAFT → u.cron_schedule = none →
      u.next_scheduled_time = none →
      j8.schedule = none ∧ j8.next_scheduled_time = none := by
    intro hd hcn hnn
    have hf := F6y ⟨by rw [hstat5, hd], hnn, hcn⟩
    exact ⟨by rw [Sc8, Sc7, hf.1], by rw [Nt8, Nt7, hf.2]⟩
  refine ⟨?_, ?_⟩
  · -- always-clears clause, for any confirm flag
    intro hd hcn hnn
    obtain ⟨hs8, hn8⟩ := hsched_none hd hcn hnn
    have hst8 : j8.status = .DRAFT := by rw [hstat, hd]
    cases hcf : u.confirm_draft with
    | false =>
      simp only [updConfirmDraft, hcf, Bool.not_false, if_true, Except.ok.injEq] at hok
      refine ⟨j8, ?_, hs8, hn8⟩
      rw [← hok]
      exact setJob_single db j j8 hdb huuid
    | true =>
      simp only [updConfirmDraft, hcf, Bool.not_true] at hok
      rw [if_neg (by simp)] at hok
      rw [if_neg (by simp [hst8])] at hok
      by_cases hmi : missing_images
          (j8.pipeline_definition.steps.map (fun s => s.environment)) = []
      · rw [if_neg (by simp [hmi])] at hok
        simp only [hs8] at hok
        simp only [hn8] at hok
        obtain ⟨res, hres1, hres2, _, _, _, _, _⟩ := runJobTransaction_step
          (setJob db { j8 with
            schedule := none, status := JobStatus.PENDING,
            next_scheduled_time := none, last_scheduled_time := some now })
          { j8 with
            schedule := none, status := JobStatus.PENDING,
            next_scheduled_time := none, last_scheduled_time := some now }
          (setJob_single db j _ hdb huuid)
        have hres1' : runJobTransaction
            (setJob db { j8 with
              schedule := none, status := JobStatus.PENDING,
              next_scheduled_time := none, last_scheduled_time := some now })
            j8.uuid = some res := hres1
        simp only [hres1', Except.ok.injEq] at hok
        refine ⟨jobAfterRun { j8 with
          schedule := none, status := JobStatus.PENDING,
          next_scheduled_time := none, last_scheduled_time := some now }, ?_, ?_, ?_⟩
        · rw [← hok]
          exact hres2
        · simp [jobAfterRun]
        · simp [jobAfterRun]
      · rw [if_pos (by simp [hmi])] at hok
        cases hok
  · -- frame clause, for updates without confirm_draft
    intro hcf
    simp only [updConfirmDraft, hcf, Bool.not_false, if_true, Except.ok.injEq] at hok
    refine ⟨j8, ?_, ?_, hstat, hexec, htspr, hlast, ?_, ?_, ?_, ?_, ?_, ?_, ?_, ?_⟩
    · rw [← hok]
      exact setJob_single db j j8 hdb huuid
    · rw [← hok]
      rfl
    · intro h
      rw [N8, N7, N6, N5, N4, N3, N2, Nm0 h]
    · intro h
      rw [P8, P7, P6, P5, P4, P3 h, P2, P0]
    · intro h
      rw [E8, E7, E6, E5, E4 h, E3, E2, E0]
    · intro h
      rw [S8, S7 h, S6, S5, S4, S3, S2, S0]
    · intro h
      rw [M8 h, M7, M6, M5, M4, M3, M2, M0]
    · intro hnd hcn hnn
      have hf := F6n (by
        intro hc
        exact hnd (by rw [← hstat5]; exact hc.1))
      obtain ⟨ha, hb⟩ := T5n hnn
      obtain ⟨hc, hd⟩ := C2n hcn
      constructor
      · rw [Sc8, Sc7, hf.1, ha, Sc4, Sc3, hc, Sc0]
      · rw [Nt8, Nt7, hf.2, hb, Nt4, Nt3, hd, Nt0]
    · intro cs hcs
      have hj2 := C2s cs hcs
      have hsched4 : j4.schedule = some cs := by rw [Sc4, Sc3, hj2.1]
      have hnst4 : j4.next_scheduled_time = some (croniter_get_next cs now) := by
        rw [Nt4, Nt3, hj2.2]
      have hnn : u.next_scheduled_time = none := by
        cases hnt : u.next_scheduled_time with
        | none => rfl
        | some t =>
          obtain ⟨_, _, _, hcontra⟩ := T5s t hnt
          obtain ⟨hx, _⟩ := hcontra (by simp [hcs])
          rw [hsched4] at hx
          cases hx
      have hf := F6n (by
        intro hc
        rw [hcs] at hc
        cases hc.2.2)
      obtain ⟨ha, hb⟩ := T5n hnn
      constructor
      · rw [Sc8, Sc7, hf.1, ha, hsched4]
      · rw [Nt8, Nt7, hf.2, hb, hnst4]
    · intro t hnt hcn
      obtain ⟨_, hn5, hs5, _⟩ := T5s t hnt
      have hf := F6n (by
        intro hc
        rw [hnt] at hc
        cases hc.2.1)
      constructor
      · rw [Sc8, Sc7, hf.1, hs5 hcn]
      · rw [Nt8, Nt7, hf.2, hn5]

/-- Closed witness for the amended C10: a name-only update on a DRAFT that
stored a scheduled start succeeds and clears both schedule fields. -/
theorem C10_draft_reschedule_frame_witness :
    updateJobTransaction (fun _ => true) (fun _ => []) 0 c10_witness_db "job"
        c10_witness_update = .ok c10_witness_result ∧
    ∃ jf, c10_witness_result.jobs = [jf] ∧ jf.schedule = none ∧
      jf.next_scheduled_time = none := by
  refine ⟨by rfl, ?_⟩
  exact (C10_draft_reschedule_frame (fun _ => true) (fun _ => []) 0 c10_witness_db
    c10_witness_result { baseJob with status := .DRAFT, next_scheduled_time := some 60 }
    "job" c10_witness_update rfl rfl (by rfl)).1 rfl rfl rfl

end Orchest
